import Mathlib

/-!
# go-gin-prometheus: exporter configuration and request measurement

A shallow embedding of the Go package `ginprometheus` (files `metric.go`,
`exporter.go`, `options.go`, `middleware.go`) and the properties of its
specification that are settled against it.

Conventions of the embedding:

* a Go `string` is the list of its bytes (`GoString`), valid UTF-8 or not; `lit s` is
  the Go string literal with the text `s`; `len` is the number of bytes;
* Go's `int` is the 64-bit two's-complement integer: values are `Int`, and every
  addition is wrapped by `wrapInt`;
* a pointer `*Metric` is an address into a heap of `Metric` cells;
* a panic is the `error` case of `Except String`;
* a `float64` sample is kept symbolically as the quotient it was computed from;
* the metrics library, the web framework and Go's standard library are outside the
  package: of them the embedding keeps what the package calls. The decisions taken inside
  the metrics library (whether a constructor panics, whether a registry accepts a
  collector, which collectors its scrape handler registers) are the parameter `Library`.
-/

namespace GinPrometheus

/-! ## Go primitives -/

/-- A Go `string`: a sequence of bytes. -/
abbrev GoString := List UInt8

/-- The Go string literal with the text `s`: the UTF-8 encoding of `s`. -/
def lit (s : String) : GoString := s.data.flatMap String.utf8EncodeChar

/-- Go's builtin `len` on a string: the number of bytes. -/
def len (s : GoString) : Int := (s.length : Int)

/-- Reduction of an integer to Go's 64-bit `int` (two's complement). -/
def wrapInt (x : Int) : Int := (x + 9223372036854775808) % 18446744073709551616 - 9223372036854775808

/-- Go's `+` (and `+=`) on `int`. -/
def intAdd (a b : Int) : Int := wrapInt (a + b)

/-- The decimal digits of `n` in front of `ds`, most significant first; `fuel` bounds the number
of digits. -/
def digitsFuel : Nat → Nat → GoString → GoString
  | 0, _, ds => ds
  | fuel + 1, n, ds =>
    if n / 10 = 0 then UInt8.ofNat (48 + n % 10) :: ds
    else digitsFuel fuel (n / 10) (UInt8.ofNat (48 + n % 10) :: ds)

/-- Go's `strconv.Itoa`: the decimal digits, after a minus sign for a negative number. -/
def strconv_Itoa : Int → GoString
  | .ofNat n => digitsFuel (n + 1) n []
  | .negSucc n => 45 :: digitsFuel (n + 2) (n + 1) []

/-- Go's `strings.Replace(s, old, new, 1)`, the only count the package uses, with the subject
as last argument: the first occurrence of `old` (scanning the bytes left to right) is replaced
by `new`; an empty `old` matches at the very beginning; without an occurrence the string is
returned as it is. -/
def replaceFirst (old new : GoString) : GoString → GoString
  | [] => if old = [] then new else []
  | c :: s =>
    if old.isPrefixOf (c :: s) then new ++ (c :: s).drop old.length
    else c :: replaceFirst old new s

/-- Go's `strings.Replace(s, old, new, 1)`. -/
def strings_Replace1 (s old new : GoString) : GoString := replaceFirst old new s

/-- The scan of Go's `utf8.ValidString`: `pending` continuation bytes are still due, and the
next of them must lie between `lo` and `hi`. A first byte below 0x80 stands alone; 0xC2 to
0xDF opens a sequence of two bytes, 0xE0 to 0xEF of three and 0xF0 to 0xF4 of four, where the
second byte is restricted after 0xE0, 0xED, 0xF0 and 0xF4 (no overlong form, no surrogate,
nothing above U+10FFFF); every other first byte is invalid. -/
def validFrom : Nat → UInt8 → UInt8 → GoString → Bool
  | 0, _, _, [] => true
  | _ + 1, _, _, [] => false
  | 0, _, _, b :: rest =>
    if b < 0x80 then validFrom 0 0x80 0xBF rest
    else if 0xC2 ≤ b ∧ b ≤ 0xDF then validFrom 1 0x80 0xBF rest
    else if b = 0xE0 then validFrom 2 0xA0 0xBF rest
    else if b = 0xED then validFrom 2 0x80 0x9F rest
    else if 0xE1 ≤ b ∧ b ≤ 0xEF then validFrom 2 0x80 0xBF rest
    else if b = 0xF0 then validFrom 3 0x90 0xBF rest
    else if b = 0xF4 then validFrom 3 0x80 0x8F rest
    else if 0xF1 ≤ b ∧ b ≤ 0xF3 then validFrom 3 0x80 0xBF rest
    else false
  | n + 1, lo, hi, b :: rest =>
    if lo ≤ b ∧ b ≤ hi then validFrom n 0x80 0xBF rest else false

/-- Go's `utf8.ValidString`. -/
def utf8_ValidString (s : GoString) : Bool := validFrom 0 0x80 0xBF s

/-- Dereference of a possibly nil pointer. -/
def deref {α : Type} (what : String) : Option α → Except String α
  | some a => .ok a
  | none => .error ("invalid memory address or nil pointer dereference: " ++ what)

/-! ## The `net/http` request, as far as the package reads it -/

/-- Go's `url.URL`, of which the package reads the path. -/
structure URL where
  Path : GoString
  deriving DecidableEq, Repr

/-- Go's `http.Request`. `Header` is a Go map; it is given as the list of its entries in the
order in which one `range` over the map visits them. -/
structure Request where
  URL : Option URL
  Method : GoString
  Proto : GoString
  Header : List (GoString × List GoString)
  Host : GoString
  ContentLength : Int
  deriving DecidableEq, Repr

/-- Body of the inner header loop: `for _, value := range values { s += len(value) }`. -/
def addValues (s : Int) (values : List GoString) : Int :=
  values.foldl (fun s value => intAdd s (len value)) s

/-- Body of the outer header loop: `s += len(name)` followed by the inner loop. -/
def addHeader (s : Int) (h : GoString × List GoString) : Int :=
  addValues (intAdd s (len h.1)) h.2

/-- `computeApproximateRequestSize` of `exporter.go`. -/
def computeApproximateRequestSize (r : Request) : Int :=
  let s : Int := match r.URL with
    | some u => len u.Path
    | none => 0
  let s := intAdd s (len r.Method)
  let s := intAdd s (len r.Proto)
  let s := r.Header.foldl addHeader s
  let s := intAdd s (len r.Host)
  if r.ContentLength ≠ -1 then intAdd s (wrapInt r.ContentLength) else s

/-! ## `metric.go` -/

/-- `MetricType` of `metric.go`: an `int8`. -/
abbrev MetricType := Int

/-- The constant `MetricTypeCounterVec`. -/
def MetricTypeCounterVec : MetricType := 0

/-- The constant `MetricTypeCounter`. -/
def MetricTypeCounter : MetricType := 1

/-- The constant `MetricTypeGaugeVec`. -/
def MetricTypeGaugeVec : MetricType := 2

/-- The constant `MetricTypeGauge`. -/
def MetricTypeGauge : MetricType := 3

/-- The constant `MetricTypeHistogramVec`. -/
def MetricTypeHistogramVec : MetricType := 4

/-- The constant `MetricTypeHistogram`. -/
def MetricTypeHistogram : MetricType := 5

/-- The constant `MetricTypeSummaryVec`. -/
def MetricTypeSummaryVec : MetricType := 6

/-- The constant `MetricTypeSummary`. -/
def MetricTypeSummary : MetricType := 7

/-- The dynamic type of a collector of the metrics library. -/
inductive CollectorKind
  | CounterVec
  | Counter
  | GaugeVec
  | Gauge
  | HistogramVec
  | Histogram
  | SummaryVec
  | Summary
  deriving DecidableEq, Repr

/-- The options (`CounterOpts`, `GaugeOpts`, `HistogramOpts`, `SummaryOpts`) a collector is
built from, as far as `NewMetric` fills them in. -/
structure Opts where
  Subsystem : GoString
  Name : GoString
  Help : GoString
  deriving DecidableEq, Repr

/-- A collector of the metrics library: its dynamic type, the options it was built from and
its label names (empty for the unlabeled kinds). -/
structure Collector where
  kind : CollectorKind
  opts : Opts
  labelNames : List GoString
  deriving DecidableEq, Repr

/-- The error of `Register`: the library's `AlreadyRegisteredError`, or any other error. -/
inductive RegisterError
  | alreadyRegistered
  | other (msg : String)
  deriving DecidableEq, Repr

/-- The decisions taken inside the metrics library, which is not part of the repository:
* `constructorPanics kind opts labelNames`: `some msg` when the constructor of a collector of
  that kind panics on these options and label names, `none` when it returns the collector;
* `register registered c`: the decision of a registry that holds the collectors `registered`
  on `Register(c)`: `none` accepts `c`, `some err` rejects it with the error `err`;
* `handlerCollectors`: the collectors the library's scrape handler (`promhttp.Handler()`)
  registers on the default registerer when it is created. -/
structure Library where
  constructorPanics : CollectorKind → Opts → List GoString → Option String
  register : List Collector → Collector → Option RegisterError
  handlerCollectors : List Collector

/-- A call of one of the library's constructors (`prometheus.NewCounterVec` and the like). -/
def construct (lib : Library) (kind : CollectorKind) (opts : Opts) (labelNames : List GoString) :
    Except String (Option Collector) :=
  match lib.constructorPanics kind opts labelNames with
  | some msg => .error msg
  | none => .ok (some { kind := kind, opts := opts, labelNames := labelNames })

/-- `Metric` of `metric.go`; `collector` is `none` while the handle is nil, and the field
`Type` is spelled `Type_`. -/
structure Metric where
  collector : Option Collector
  ID : GoString
  Name : GoString
  Description : GoString
  Type_ : MetricType
  Args : List GoString
  deriving DecidableEq, Repr

/-- `NewMetric` of `metric.go`: the result is the nil collector (`none`) when the type is none
of the eight constants. -/
def NewMetric (lib : Library) (m : Metric) (subsystem : GoString) :
    Except String (Option Collector) :=
  let opts : Opts := { Subsystem := subsystem, Name := m.Name, Help := m.Description }
  if m.Type_ = MetricTypeCounterVec then construct lib .CounterVec opts m.Args
  else if m.Type_ = MetricTypeCounter then construct lib .Counter opts []
  else if m.Type_ = MetricTypeGaugeVec then construct lib .GaugeVec opts m.Args
  else if m.Type_ = MetricTypeGauge then construct lib .Gauge opts []
  else if m.Type_ = MetricTypeHistogramVec then construct lib .HistogramVec opts m.Args
  else if m.Type_ = MetricTypeHistogram then construct lib .Histogram opts []
  else if m.Type_ = MetricTypeSummaryVec then construct lib .SummaryVec opts m.Args
  else if m.Type_ = MetricTypeSummary then construct lib .Summary opts []
  else .ok none

/-- A `*Metric`: the address of a `Metric` cell. -/
abbrev MetricRef := Nat

/-- The memory holding the `Metric` cells. -/
abbrev Heap := MetricRef → Metric

/-- Assignment through a `*Metric`. -/
def Heap.set (h : Heap) (r : MetricRef) (m : Metric) : Heap :=
  fun a => if a = r then m else h a

/-- The package variable `reqCnt` (a `*Metric`). -/
def reqCnt : MetricRef := 0

/-- The package variable `reqDur`. -/
def reqDur : MetricRef := 1

/-- The package variable `resSz`. -/
def resSz : MetricRef := 2

/-- The package variable `reqSz`. -/
def reqSz : MetricRef := 3

/-- The cell `reqCnt` points to, as initialised by the package. -/
def reqCntDef : Metric :=
  { collector := none
    ID := lit "reqCnt"
    Name := lit "requests_total"
    Description := lit "How many HTTP requests processed, partitioned by status code and HTTP method."
    Type_ := MetricTypeCounterVec
    Args := [lit "code", lit "method", lit "handler", lit "host", lit "url"] }

/-- The cell `reqDur` points to, as initialised by the package. -/
def reqDurDef : Metric :=
  { collector := none
    ID := lit "reqDur"
    Name := lit "request_duration_seconds"
    Description := lit "The HTTP request latencies in seconds."
    Type_ := MetricTypeHistogramVec
    Args := [lit "code", lit "method", lit "url"] }

/-- The cell `resSz` points to, as initialised by the package. -/
def resSzDef : Metric :=
  { collector := none
    ID := lit "resSz"
    Name := lit "response_size_bytes"
    Description := lit "The HTTP response sizes in bytes."
    Type_ := MetricTypeSummary
    Args := [] }

/-- The cell `reqSz` points to, as initialised by the package. -/
def reqSzDef : Metric :=
  { collector := none
    ID := lit "reqSz"
    Name := lit "request_size_bytes"
    Description := lit "The HTTP request sizes in bytes."
    Type_ := MetricTypeSummary
    Args := [] }

/-- The package variable `standardMetrics`. -/
def standardMetrics : List MetricRef := [reqCnt, reqDur, resSz, reqSz]

/-- The zero value of `Metric`. -/
def zeroMetric : Metric :=
  { collector := none, ID := [], Name := [], Description := [], Type_ := 0, Args := [] }

/-- The heap right after package initialisation: the four standard definitions, handles nil. -/
def initHeap : Heap :=
  fun a =>
    if a = reqCnt then reqCntDef
    else if a = reqDur then reqDurDef
    else if a = resSz then resSzDef
    else if a = reqSz then reqSzDef
    else zeroMetric

/-- The four package variables still hold their declared definitions; nothing is said about
the handles, which `registerMetrics` overwrites. -/
def StdDefs (h : Heap) : Prop :=
  { h reqCnt with collector := none } = reqCntDef ∧
  { h reqDur with collector := none } = reqDurDef ∧
  { h resSz with collector := none } = resSzDef ∧
  { h reqSz with collector := none } = reqSzDef


/-! ## The web framework, as far as the package uses it -/

/-- A value of Go's type `any` stored in the per-request context: a string, or a value of some
other dynamic type (of which only the type name is kept). -/
inductive Dyn
  | str (s : GoString)
  | other (goType : String)
  deriving DecidableEq, Repr

/-- A matched route parameter (`gin.Param`). -/
structure Param where
  Key : GoString
  Value : GoString
  deriving DecidableEq, Repr

/-- What the package reads of `gin.ResponseWriter`: `Status()` and `Size()`. -/
structure ResponseWriter where
  status : Int
  size : Int
  deriving DecidableEq, Repr

/-- What the package reads of `gin.Context`. `Keys` is the per-request key/value store read by
`c.Get`; `handlerName` is the result of `c.HandlerName()`. -/
structure Context where
  Request : Request
  Writer : ResponseWriter
  Params : List Param
  Keys : List (GoString × Dyn)
  handlerName : GoString
  deriving DecidableEq, Repr

/-- The method `c.Get(key)`: the stored value, or `none` when the key does not exist. -/
def Context.Get (c : Context) (key : GoString) : Option Dyn := c.Keys.lookup key

/-- A `*gin.Engine`; `none` is the nil pointer. -/
abbrev EngineRef := Nat

/-- The type `gin.Accounts`. -/
abbrev Accounts := List (GoString × GoString)

/-- A GET route installed on an engine, with the accounts of its basic authentication. -/
structure Route where
  engine : EngineRef
  path : GoString
  auth : Option Accounts
  deriving DecidableEq, Repr

/-- A task the package starts in the background: a metrics server, a push loop. -/
inductive BackgroundTask
  | runServer (engine : EngineRef) (address : GoString)
  | pushTicker (every : Int)
  deriving DecidableEq, Repr

/-- `gin.BasicAuth(accounts)`: the framework panics on an empty set of accounts and on an
account with an empty user name. -/
def BasicAuth (accounts : Accounts) : Except String Accounts :=
  if accounts = [] then .error "Empty list of authorized credentials"
  else if accounts.any (fun a => a.1 == []) then .error "User can not be empty"
  else .ok accounts

/-! ## `exporter.go` -/

/-- `RequestCounterURLLabelMappingFn` of `exporter.go`; the function may panic. -/
abbrev RequestCounterURLLabelMappingFn := Context → Except String GoString

/-- A `prometheus.Registerer` value: a reference to a registry. -/
abbrev RegistererRef := Nat

/-- The library's `prometheus.DefaultRegisterer`. -/
def DefaultRegisterer : RegistererRef := 0

/-- The package variable `defaultMetricPath`. -/
def defaultMetricPath : GoString := lit "/metrics"

/-- `PrometheusPushGateway` of `exporter.go`. -/
structure PrometheusPushGateway where
  PushIntervalSeconds : Int
  PushGatewayURL : GoString
  MetricsURL : GoString
  Job : GoString
  deriving DecidableEq, Repr

/-- The struct `exporter` of `exporter.go`. The four typed handles are `none` while nil. -/
structure exporter where
  reqCnt : Option Collector
  reqDur : Option Collector
  reqSz : Option Collector
  resSz : Option Collector
  router : Option EngineRef
  listenAddress : GoString
  Ppg : PrometheusPushGateway
  registerer : RegistererRef
  MetricsList : List MetricRef
  MetricsPath : GoString
  ReqCntURLLabelMappingFn : RequestCounterURLLabelMappingFn
  URLLabelFromContext : GoString
  metricsWithAuth : Bool
  accounts : Accounts

/-- The state the package works on: the heap of metric definitions, the content of every
registry (the collectors registered so far, oldest first), the error log, the number of engines
created so far, the GET routes installed so far on every engine, and the background tasks
started so far. -/
structure World where
  heap : Heap
  registries : RegistererRef → List Collector
  log : List GoString
  engines : Nat
  routes : List Route
  tasks : List BackgroundTask

/-- The call `registerer.Register(c)`: the registry asks the collector for its descriptors, a
nil dereference when `c` is nil; an accepted collector is added to the registry; the result
carries the error, if any. -/
def Register (lib : Library) (w : World) (r : RegistererRef) (c : Option Collector) :
    Except String (World × Option RegisterError) := do
  let c ← deref "collector" c
  match lib.register (w.registries r) c with
  | some err => pure (w, some err)
  | none =>
    pure
      ({ w with registries := fun a => if a = r then w.registries r ++ [c] else w.registries a },
        none)

/-- The engine method `GET(path, handlers...)`: a nil dereference on a nil engine, and a panic
when the engine already has a GET route for the path (the path is taken as given). -/
def GET (w : World) (engine : Option EngineRef) (path : GoString) (auth : Option Accounts) :
    Except String World := do
  let r ← deref "engine" engine
  if w.routes.any (fun rt => rt.engine == r && rt.path == path) then
    .error "handlers are already registered for path"
  else pure { w with routes := w.routes ++ [{ engine := r, path := path, auth := auth }] }

/-- The type assertion `metric.(*prometheus.CounterVec)`. -/
def assertCounterVec : Option Collector → Except String Collector
  | none => .error "interface conversion: interface is nil, not *prometheus.CounterVec"
  | some m =>
    if m.kind = .CounterVec then .ok m
    else .error "interface conversion: prometheus.Collector is not *prometheus.CounterVec"

/-- The type assertion `metric.(*prometheus.HistogramVec)`. -/
def assertHistogramVec : Option Collector → Except String Collector
  | none => .error "interface conversion: interface is nil, not *prometheus.HistogramVec"
  | some m =>
    if m.kind = .HistogramVec then .ok m
    else .error "interface conversion: prometheus.Collector is not *prometheus.HistogramVec"

/-- The type assertion `metric.(prometheus.Summary)`. `Summary` is an interface, and its method
set (metric, collector, `Observe`) is also that of a histogram. -/
def assertSummary : Option Collector → Except String Collector
  | none => .error "interface conversion: interface is nil, not prometheus.Summary"
  | some m =>
    if m.kind = .Summary ∨ m.kind = .Histogram then .ok m
    else .error "interface conversion: prometheus.Collector is not prometheus.Summary"

/-- The error line `registerMetrics` logs for a definition. -/
def registerErrorLine (name : GoString) : GoString :=
  name ++ lit " could not be registered in exporter"

/-- In the loop of `registerMetrics`: the call `p.registerer.Register(metric)`, with the error
line logged when it fails. -/
def registerAndLog (lib : Library) (w : World) (r : RegistererRef) (name : GoString)
    (metric : Option Collector) : Except String World := do
  let res ← Register lib w r metric
  match res with
  | (w, some _) => pure { w with log := w.log ++ [registerErrorLine name] }
  | (w, none) => pure w

/-- In the loop of `registerMetrics`: the `switch metricDef`, which stores the collector in the
typed field of the exporter when the definition is one of the four package variables. -/
def bindStandard (p : exporter) (metricDef : MetricRef) (metric : Option Collector) :
    Except String exporter :=
  if metricDef = reqCnt then do
    let m ← assertCounterVec metric
    pure { p with reqCnt := some m }
  else if metricDef = reqDur then do
    let m ← assertHistogramVec metric
    pure { p with reqDur := some m }
  else if metricDef = resSz then do
    let m ← assertSummary metric
    pure { p with resSz := some m }
  else if metricDef = reqSz then do
    let m ← assertSummary metric
    pure { p with reqSz := some m }
  else pure p

/-- One iteration of the loop of `registerMetrics`, for the definition `metricDef`: construct
the collector, register it (logging a failure), run the `switch`, and bind the collector to
the definition with `metricDef.collector = metric`. -/
def registerMetric (lib : Library) (subsystem : GoString) (wp : World × exporter)
    (metricDef : MetricRef) : Except String (World × exporter) := do
  let metric ← NewMetric lib (wp.1.heap metricDef) subsystem
  let w ← registerAndLog lib wp.1 wp.2.registerer (wp.1.heap metricDef).Name metric
  let p ← bindStandard wp.2 metricDef metric
  pure ({ w with heap := w.heap.set metricDef { w.heap metricDef with collector := metric } }, p)

/-- `registerMetrics` of `exporter.go`. -/
def registerMetrics (lib : Library) (subsystem : GoString) (wp : World × exporter) :
    Except String (World × exporter) :=
  let m := standardMetrics ++ wp.2.MetricsList
  m.foldlM (registerMetric lib subsystem) wp

/-- The struct literal `&exporter{...}` of `newExporter`: every field the literal leaves out
has its zero value, and the default label mapping returns the path as it is. -/
def freshExporter : exporter :=
  { reqCnt := none
    reqDur := none
    reqSz := none
    resSz := none
    router := none
    listenAddress := []
    Ppg := { PushIntervalSeconds := 0, PushGatewayURL := [], MetricsURL := [], Job := [] }
    registerer := DefaultRegisterer
    MetricsList := []
    MetricsPath := defaultMetricPath
    ReqCntURLLabelMappingFn := fun c => do
      let u ← deref "c.Request.URL" c.Request.URL
      pure u.Path
    URLLabelFromContext := []
    metricsWithAuth := false
    accounts := [] }

/-- `newExporter` of `exporter.go`: the fresh exporter, then `p.registerMetrics(subsystem)`. -/
def newExporter (lib : Library) (w : World) (subsystem : GoString) :
    Except String (World × exporter) :=
  registerMetrics lib subsystem (w, freshExporter)

/-- `runServer` of `exporter.go`; the server runs in the background. -/
def runServer (wp : World × exporter) : Except String (World × exporter) :=
  if wp.2.listenAddress ≠ [] then do
    let r ← deref "p.router" wp.2.router
    pure ({ wp.1 with tasks := wp.1.tasks ++ [BackgroundTask.runServer r wp.2.listenAddress] }, wp.2)
  else pure wp

/-- `getPushGatewayURL` of `exporter.go`; `h` is the name returned by `os.Hostname()`. The
method also stores the default job name. -/
def getPushGatewayURL (p : exporter) (h : GoString) : GoString × exporter :=
  let p := if p.Ppg.Job = [] then { p with Ppg := { p.Ppg with Job := lit "gin" } } else p
  (p.Ppg.PushGatewayURL ++ lit "/metrics/job/" ++ p.Ppg.Job ++ lit "/instance/" ++ h, p)

/-- `startPushTicker` of `exporter.go`: `time.NewTicker` panics on a non-positive duration; the
loop itself runs in the background. -/
def startPushTicker (wp : World × exporter) : Except String (World × exporter) :=
  let d := wrapInt (1000000000 * wp.2.Ppg.PushIntervalSeconds)
  if d ≤ 0 then .error "non-positive interval for NewTicker"
  else pure ({ wp.1 with tasks := wp.1.tasks ++ [BackgroundTask.pushTicker d] }, wp.2)

/-- One step of the creation of the library's scrape handler: it registers a collector of its
own on the default registerer, goes on with the registered one when the registry answers
that the collector is already registered, and panics on any other error. -/
def registerHandlerCollector (lib : Library) (w : World) (c : Collector) : Except String World := do
  let res ← Register lib w DefaultRegisterer (some c)
  match res with
  | (w, none) => pure w
  | (w, some .alreadyRegistered) => pure w
  | (_, some (.other msg)) => .error msg

/-- `prometheusHandler` of `exporter.go`: the call `promhttp.Handler()` creates the library's
scrape handler, which registers the library's own collectors on the default registerer. -/
def prometheusHandler (lib : Library) (w : World) : Except String World :=
  lib.handlerCollectors.foldlM (registerHandlerCollector lib) w

/-- `setMetricsPath` of `exporter.go`; `e` is the engine of the caller. -/
def setMetricsPath (lib : Library) (wp : World × exporter) (e : Option EngineRef) :
    Except String (World × exporter) :=
  if wp.2.listenAddress ≠ [] then do
    let w ← prometheusHandler lib wp.1
    let w ← GET w wp.2.router wp.2.MetricsPath none
    runServer (w, wp.2)
  else do
    let w ← prometheusHandler lib wp.1
    let w ← GET w e wp.2.MetricsPath none
    pure (w, wp.2)

/-- `setMetricsPathWithAuth` of `exporter.go`. -/
def setMetricsPathWithAuth (lib : Library) (wp : World × exporter) (e : Option EngineRef) :
    Except String (World × exporter) :=
  if wp.2.listenAddress ≠ [] then do
    let accounts ← BasicAuth wp.2.accounts
    let w ← prometheusHandler lib wp.1
    let w ← GET w wp.2.router wp.2.MetricsPath (some accounts)
    runServer (w, wp.2)
  else do
    let accounts ← BasicAuth wp.2.accounts
    let w ← prometheusHandler lib wp.1
    let w ← GET w e wp.2.MetricsPath (some accounts)
    pure (w, wp.2)

/-! ## `options.go` -/

/-- The label mapping installed by `WithLowCardinalityUrl`: every route parameter's value is
replaced, first occurrence only and in the order of the parameters, by `:` and its key. -/
def lowCardinalityUrl : RequestCounterURLLabelMappingFn :=
  fun c => do
    let u ← deref "c.Request.URL" c.Request.URL
    pure (c.Params.foldl (fun url p => strings_Replace1 url p.Value (lit ":" ++ p.Key)) u.Path)

/-- `GinPrometheusOpt` of `options.go`: the options the package offers, one constructor for each
of its option builders. A mapping function handed to `WithRequestCounterURLLabelMappingFn`
is taken to return. -/
inductive GinPrometheusOpt
  | WithPushGateway (pushGatewayURL metricsURL : GoString) (pushInterval : Int)
  | WithPushGatewayJob (j : GoString)
  | WithListenAddress (address : GoString)
  | WithListenAddressWithRouter (listenAddress : GoString) (r : Option EngineRef)
  | WithMetricsAuth (accounts : Accounts)
  | WithCustomMetric (metric : MetricRef)
  | WithRegisterer (r : RegistererRef)
  | WithRequestCounterURLLabelMappingFn (fn : Context → GoString)
  | WithLowCardinalityUrl

open GinPrometheusOpt

/-- The closure each option builder of `options.go` returns, run on the exporter. The interval
of `WithPushGateway` goes to the interval field of `PrometheusPushGateway`, which `options.go`
spells `PushInterval` and the struct `PushIntervalSeconds`. -/
def GinPrometheusOpt.run : GinPrometheusOpt → World × exporter → Except String (World × exporter)
  | WithPushGateway pushGatewayURL metricsURL pushInterval, (w, p) =>
    startPushTicker
      (w, { p with Ppg := { p.Ppg with PushGatewayURL := pushGatewayURL, MetricsURL := metricsURL,
                                       PushIntervalSeconds := pushInterval } })
  | WithPushGatewayJob j, (w, p) =>
    pure (w, { p with Ppg := { p.Ppg with Job := j } })
  | WithListenAddress address, (w, p) =>
    if address ≠ [] then
      pure ({ w with engines := w.engines + 1 }, { p with listenAddress := address, router := some w.engines })
    else pure (w, { p with listenAddress := address })
  | WithListenAddressWithRouter listenAddress r, (w, p) =>
    if len listenAddress > 0 then
      pure (w, { p with listenAddress := listenAddress, router := r })
    else pure (w, { p with listenAddress := listenAddress })
  | WithMetricsAuth accounts, (w, p) =>
    pure (w, { p with metricsWithAuth := true, accounts := accounts })
  | WithCustomMetric metric, (w, p) =>
    pure (w, { p with MetricsList := p.MetricsList ++ [metric] })
  | WithRegisterer r, (w, p) =>
    pure (w, { p with registerer := r })
  | WithRequestCounterURLLabelMappingFn fn, (w, p) =>
    pure (w, { p with ReqCntURLLabelMappingFn := fun c => pure (fn c) })
  | WithLowCardinalityUrl, (w, p) =>
    pure (w, { p with ReqCntURLLabelMappingFn := lowCardinalityUrl })

/-! ## `middleware.go` -/

/-- The construction part of `GinPrometheusMiddleware`: the exporter the returned handler
closes over, and the world after the construction. `e` is the engine of the caller. -/
def GinPrometheusMiddleware (lib : Library) (w : World) (e : Option EngineRef)
    (subsystem : GoString) (opts : List GinPrometheusOpt) : Except String (World × exporter) := do
  let wp ← newExporter lib w subsystem
  let wp ← opts.foldlM (fun wp opt => opt.run wp) wp
  if wp.2.metricsWithAuth then setMetricsPathWithAuth lib wp e else setMetricsPath lib wp e

/-- A `float64` sample, kept as the quotient `float64(num) / float64(den)` it is computed from. -/
structure Sample where
  num : Int
  den : Int
  deriving DecidableEq, Repr

/-- The observations recorded so far by the four standard collectors of one exporter, oldest
first: for the two labeled collectors each entry carries the label values. -/
structure Observations where
  reqDur : List (List GoString × Sample)
  reqCnt : List (List GoString)
  reqSz : List Sample
  resSz : List Sample
  deriving DecidableEq, Repr

/-- The library's `WithLabelValues` on a labeled collector handle: it panics on a nil handle,
when the number of label values differs from the number of label names, and when a label
value is not valid UTF-8. -/
def WithLabelValues (vec : Option Collector) (lvs : List GoString) : Except String Unit := do
  let m ← deref "collector" vec
  if lvs.length ≠ m.labelNames.length then .error "inconsistent label cardinality"
  else if lvs.all utf8_ValidString then pure ()
  else .error "label value is not valid UTF-8"

/-- The type assertion `u.(string)`. -/
def assertString : Dyn → Except String GoString
  | .str s => .ok s
  | .other t => .error ("interface conversion: interface is " ++ t ++ ", not string")

/-- In the handler: the block `if len(p.URLLabelFromContext) > 0 { ... }`, which replaces the
label `url` by the value stored in the context under the configured key, by the string
"unknown" when the key is absent. -/
def urlLabelFromContext (p : exporter) (c : Context) (url : GoString) : Except String GoString :=
  if len p.URLLabelFromContext > 0 then
    assertString (match c.Get p.URLLabelFromContext with
      | some u => u
      | none => Dyn.str (lit "unknown"))
  else pure url

/-- In the handler: the label `url`, from `url := p.ReqCntURLLabelMappingFn(c)` to the end of the
block on `URLLabelFromContext`. -/
def urlLabel (p : exporter) (c : Context) : Except String GoString := do
  let url ← p.ReqCntURLLabelMappingFn c
  urlLabelFromContext p c url

/-- The handler `GinPrometheusMiddleware` returns, closed over the exporter `p`. `next` is the
rest of the handler chain run by `c.Next()`, taken to return; `elapsed` is the reading of
`time.Since(start)` in nanoseconds. The result is the context after the chain and the
observations of the four standard collectors. -/
def handler (p : exporter) (next : Context → Context) (elapsed : Int) (c : Context)
    (obs : Observations) : Except String (Context × Observations) := do
  let u ← deref "c.Request.URL" c.Request.URL
  if u.Path = p.MetricsPath then
    pure (next c, obs)
  else do
    let reqSz := computeApproximateRequestSize c.Request
    let c := next c
    let status := strconv_Itoa c.Writer.status
    let elapsed : Sample := { num := elapsed, den := 1000000000 }
    let resSz : Sample := { num := c.Writer.size, den := 1 }
    let url ← urlLabel p c
    WithLabelValues p.reqDur [status, c.Request.Method, url]
    WithLabelValues p.reqCnt [status, c.Request.Method, c.handlerName, c.Request.Host, url]
    let _ ← deref "p.reqSz" p.reqSz
    let _ ← deref "p.resSz" p.resSz
    pure (c, { reqDur := obs.reqDur ++ [([status, c.Request.Method, url], elapsed)]
               reqCnt := obs.reqCnt ++ [[status, c.Request.Method, c.handlerName, c.Request.Host, url]]
               reqSz := obs.reqSz ++ [{ num := reqSz, den := 1 }]
               resSz := obs.resSz ++ [resSz] })

/-! ## The metrics library of the examples -/

/-- Modelled from the spec: the "registered name" a collector resolves to. The metrics library
builds it from the subsystem and the name, joined by an underscore (the namespace is never set
by the package). -/
def fqName (o : Opts) : GoString :=
  if o.Name = [] then []
  else if o.Subsystem ≠ [] then o.Subsystem ++ lit "_" ++ o.Name
  else o.Name

/-- Modelled from the spec: a metrics library for the concrete statements. "No two definitions
may resolve to the same registered name within one registry; the underlying registry enforces
this": a collector whose registered name is taken is rejected, as already registered when the
holder of the name has the same label names and help text, with another error otherwise; any
other collector is accepted. The constructor of a labeled summary panics on the label name
`quantile`; the other constructors are taken to return. The scrape handler registers a request
counter and an in-flight gauge of its own. -/
def clientLibrary : Library :=
  { constructorPanics := fun kind _ labelNames =>
      if kind = .SummaryVec ∧ lit "quantile" ∈ labelNames then
        some "quantile is not allowed as label name in summaries"
      else none
    register := fun registered c =>
      match registered.find? (fun c' => fqName c'.opts == fqName c.opts) with
      | some c' =>
        if c'.labelNames = c.labelNames ∧ c'.opts.Help = c.opts.Help then
          some RegisterError.alreadyRegistered
        else some (RegisterError.other "a previously registered descriptor has the same name")
      | none => none
    handlerCollectors :=
      [{ kind := .CounterVec
         opts := { Subsystem := [], Name := lit "promhttp_metric_handler_requests_total",
                   Help := lit "Total number of scrapes by HTTP status code." }
         labelNames := [lit "code"] },
       { kind := .Gauge
         opts := { Subsystem := [], Name := lit "promhttp_metric_handler_requests_in_flight",
                   Help := lit "Current number of scrapes being served." }
         labelNames := [] }] }


/-! ## The specification's reading of the request size and of registration -/

/-- The request size as the specification words it: path length (0 without a URL), method
length, protocol length, host length, for every header the length of its name and of all of
its values, and the content length, where -1 counts as 0. The sum is taken in the integers. -/
def specRequestSize (r : Request) : Int :=
  (match r.URL with
    | some u => len u.Path
    | none => 0)
  + len r.Method + len r.Proto + len r.Host
  + (r.Header.map fun h => len h.1 + (h.2.map len).sum).sum
  + (if r.ContentLength = -1 then 0 else r.ContentLength)

/-- Registration as the specification words it, on the content of one registry and the log:
the collectors are taken one after the other, each with the name of its definition; a
collector the registry accepts is registered; for a collector the registry rejects the
failure is logged, the registry stays as it is, and the next collector is taken all the same. -/
def specRegisterAll (lib : Library) :
    List (GoString × Collector) → List Collector × List GoString → List Collector × List GoString
  | [], st => st
  | (name, c) :: rest, (registered, log) =>
    match lib.register registered c with
    | none => specRegisterAll lib rest (registered ++ [c], log)
    | some _ => specRegisterAll lib rest (registered, log ++ [registerErrorLine name])

/-! ## Invariants used in the proofs -/

/-- The collector `NewMetric` returns for a definition: `none` when it returns nil or panics. -/
def collectorOf (lib : Library) (m : Metric) (subsystem : GoString) : Option Collector :=
  match NewMetric lib m subsystem with
  | .ok c => c
  | .error _ => none

/-- The definitions of `l`, each as the name and the collector `NewMetric` returns for it. -/
def namedCollectors (lib : Library) (h : Heap) (subsystem : GoString) (l : List MetricRef) :
    List (GoString × Collector) :=
  l.filterMap fun r => (collectorOf lib (h r) subsystem).map fun c => ((h r).Name, c)

/-- The collector of the standard request counter. -/
def reqCntCollector (subsystem : GoString) : Collector :=
  { kind := .CounterVec
    opts := { Subsystem := subsystem, Name := reqCntDef.Name, Help := reqCntDef.Description }
    labelNames := reqCntDef.Args }

/-- The collector of the standard duration histogram. -/
def reqDurCollector (subsystem : GoString) : Collector :=
  { kind := .HistogramVec
    opts := { Subsystem := subsystem, Name := reqDurDef.Name, Help := reqDurDef.Description }
    labelNames := reqDurDef.Args }

/-- The collector of the standard response-size summary. -/
def resSzCollector (subsystem : GoString) : Collector :=
  { kind := .Summary
    opts := { Subsystem := subsystem, Name := resSzDef.Name, Help := resSzDef.Description }
    labelNames := [] }

/-- The collector of the standard request-size summary. -/
def reqSzCollector (subsystem : GoString) : Collector :=
  { kind := .Summary
    opts := { Subsystem := subsystem, Name := reqSzDef.Name, Help := reqSzDef.Description }
    labelNames := [] }

/-- The label mapping returns on every context whose request has a URL. -/
def MappingReturns (fn : RequestCounterURLLabelMappingFn) : Prop :=
  ∀ c : Context, c.Request.URL ≠ none → ∃ url, fn c = .ok url

/-- The two exporters agree on every field but the four typed handles. -/
structure SameConfig (p p' : exporter) : Prop where
  router : p'.router = p.router
  listenAddress : p'.listenAddress = p.listenAddress
  Ppg : p'.Ppg = p.Ppg
  registerer : p'.registerer = p.registerer
  MetricsList : p'.MetricsList = p.MetricsList
  MetricsPath : p'.MetricsPath = p.MetricsPath
  mapping : p'.ReqCntURLLabelMappingFn = p.ReqCntURLLabelMappingFn
  URLLabelFromContext : p'.URLLabelFromContext = p.URLLabelFromContext
  metricsWithAuth : p'.metricsWithAuth = p.metricsWithAuth
  accounts : p'.accounts = p.accounts

/-- What a run of the registration loop over the definitions `l` that returns, from `(w, p)` to
`(w', p')`, guarantees. -/
structure RegFacts (lib : Library) (subsystem : GoString) (l : List MetricRef) (w : World)
    (p : exporter) (w' : World) (p' : exporter) : Prop where
  built : ∀ r ∈ l, ∃ c, NewMetric lib (w.heap r) subsystem = .ok (some c)
  heap : ∀ r, w'.heap r =
    if r ∈ l then { w.heap r with collector := collectorOf lib (w.heap r) subsystem } else w.heap r
  outcome : (w'.registries p.registerer, w'.log) =
    specRegisterAll lib (namedCollectors lib w.heap subsystem l) (w.registries p.registerer, w.log)
  regOther : ∀ a, a ≠ p.registerer → w'.registries a = w.registries a
  engines : w'.engines = w.engines
  routes : w'.routes = w.routes
  tasks : w'.tasks = w.tasks
  cnt : p'.reqCnt = if reqCnt ∈ l then collectorOf lib (w.heap reqCnt) subsystem else p.reqCnt
  dur : p'.reqDur = if reqDur ∈ l then collectorOf lib (w.heap reqDur) subsystem else p.reqDur
  res : p'.resSz = if resSz ∈ l then collectorOf lib (w.heap resSz) subsystem else p.resSz
  req : p'.reqSz = if reqSz ∈ l then collectorOf lib (w.heap reqSz) subsystem else p.reqSz
  config : SameConfig p p'

/-- What running an option, or installing the metrics route, leaves as it is. -/
structure OptFrame (w : World) (p : exporter) (w' : World) (p' : exporter) : Prop where
  heap : w'.heap = w.heap
  regOther : ∀ a, a ≠ DefaultRegisterer → w'.registries a = w.registries a
  log : w'.log = w.log
  cnt : p'.reqCnt = p.reqCnt
  dur : p'.reqDur = p.reqDur
  res : p'.resSz = p.resSz
  req : p'.reqSz = p.reqSz
  MetricsPath : p'.MetricsPath = p.MetricsPath
  URLLabelFromContext : p'.URLLabelFromContext = p.URLLabelFromContext
  mapping : MappingReturns p.ReqCntURLLabelMappingFn → MappingReturns p'.ReqCntURLLabelMappingFn

/-- What the construction by `GinPrometheusMiddleware`, from the world `w` to the world `w'`,
guarantees of the exporter `p` and of the world. -/
structure Built (lib : Library) (subsystem : GoString) (w w' : World) (p : exporter) : Prop where
  cnt : p.reqCnt = some (reqCntCollector subsystem)
  dur : p.reqDur = some (reqDurCollector subsystem)
  res : p.resSz = some (resSzCollector subsystem)
  req : p.reqSz = some (reqSzCollector subsystem)
  MetricsPath : p.MetricsPath = defaultMetricPath
  URLLabelFromContext : p.URLLabelFromContext = []
  mapping : MappingReturns p.ReqCntURLLabelMappingFn
  heap : ∀ r, w'.heap r =
    if r ∈ standardMetrics then
      { w.heap r with collector := collectorOf lib (w.heap r) subsystem }
    else w.heap r
  regOther : ∀ a, a ≠ DefaultRegisterer → w'.registries a = w.registries a

/-! ## Concrete inputs

The program `example/example.go` and a few requests, used where a statement is evaluated. -/

/-- The variable `testMetric` of `example/example.go` (a `*Metric`). -/
def testMetric : MetricRef := 4

/-- The variable `testMetric2` of `example/example.go`. -/
def testMetric2 : MetricRef := 5

/-- The cell `testMetric` points to. -/
def testMetricDef : Metric :=
  { collector := none
    ID := lit "1234"
    Name := lit "test_metric"
    Description := lit "Counter test metric"
    Type_ := MetricTypeCounter
    Args := [] }

/-- The cell `testMetric2` points to. -/
def testMetric2Def : Metric :=
  { collector := none
    ID := lit "1235"
    Name := lit "test_metric_2"
    Description := lit "Summary test metric"
    Type_ := MetricTypeSummary
    Args := [] }

/-- The registry `metrics.Registry` that `example/example.go` hands to `WithRegisterer`. -/
def controllerRegistry : RegistererRef := 1

/-- The world in which `example/example.go` calls `GinPrometheusMiddleware`: the package
variables initialised, the two custom definitions allocated, no collector registered by the
program so far (the collectors the library registers for itself at start-up are left out), one
engine (`r := gin.New()`) created, no route installed. -/
def exampleWorld : World :=
  { heap := (initHeap.set testMetric testMetricDef).set testMetric2 testMetric2Def
    registries := fun _ => []
    log := []
    engines := 1
    routes := []
    tasks := [] }

/-- The options of `example/example.go`. -/
def exampleOpts : List GinPrometheusOpt :=
  [WithCustomMetric testMetric, WithCustomMetric testMetric2, WithRegisterer controllerRegistry,
    WithLowCardinalityUrl]

/-- The call `ginprometheus.GinPrometheusMiddleware(r, "gin", ...)` of `example/example.go`. -/
def exampleBuild : Except String (World × exporter) :=
  GinPrometheusMiddleware clientLibrary exampleWorld (some 0) (lit "gin") exampleOpts

/-- The world and the exporter that call leaves. -/
def exampleBuilt : World × exporter :=
  match exampleBuild with
  | .ok wp => wp
  | .error _ => (exampleWorld, freshExporter)

/-- The same call without any option: `ginprometheus.GinPrometheusMiddleware(r, "gin")`. -/
def plainBuild : Except String (World × exporter) :=
  GinPrometheusMiddleware clientLibrary exampleWorld (some 0) (lit "gin") []

/-- The world and the exporter the call without options leaves. -/
def plainBuilt : World × exporter :=
  match plainBuild with
  | .ok wp => wp
  | .error _ => (exampleWorld, freshExporter)

/-- A request `GET /customer/<v>` matched by a route `/customer/:name`. -/
def customerContext (v : GoString) : Context :=
  { Request :=
      { URL := some { Path := lit "/customer/" ++ v }
        Method := lit "GET"
        Proto := lit "HTTP/1.1"
        Header := []
        Host := lit "h"
        ContentLength := 0 }
    Writer := { status := 200, size := 0 }
    Params := [{ Key := lit "name", Value := v }]
    Keys := []
    handlerName := lit "main.customer" }

/-- The request `GET /a` matched by the route `/:name` of `example/example.go`. -/
def nameContext : Context :=
  { Request :=
      { URL := some { Path := lit "/a" }
        Method := lit "GET"
        Proto := lit "HTTP/1.1"
        Header := []
        Host := lit "h"
        ContentLength := 0 }
    Writer := { status := 200, size := 0 }
    Params := [{ Key := lit "name", Value := lit "a" }]
    Keys := []
    handlerName := lit "main.main.func2" }

/-- The context `c` with the path of its request replaced. -/
def Context.withPath (c : Context) (path : GoString) : Context :=
  { c with Request := { c.Request with URL := some { Path := path } } }

/-- The context `c` with the per-request store replaced. -/
def Context.withKeys (c : Context) (keys : List (GoString × Dyn)) : Context :=
  { c with Keys := keys }

/-- A handler chain that answers 200 with 14 bytes and touches nothing else. -/
def exampleNext (c : Context) : Context :=
  { c with Writer := { status := 200, size := 14 } }

/-- No observation recorded yet. -/
def noObservations : Observations :=
  { reqDur := [], reqCnt := [], reqSz := [], resSz := [] }

/-- The request `GET /a HTTP/1.1` to host `h`, no headers, content length 0. -/
def getA : Request :=
  { URL := some { Path := lit "/a" }
    Method := lit "GET"
    Proto := lit "HTTP/1.1"
    Header := []
    Host := lit "h"
    ContentLength := 0 }

/-- The request `getA` with the header `Content-Length: 9223372036854775807`, the largest
content length a request can announce. -/
def hugeRequest : Request :=
  { getA with ContentLength := 9223372036854775807 }

/-- A custom definition whose name is the one of the standard request counter. -/
def collidingDef : Metric :=
  { collector := none
    ID := lit "mine"
    Name := lit "requests_total"
    Description := lit "A counter of my own."
    Type_ := MetricTypeCounter
    Args := [] }

/-- A world whose heap holds `collidingDef` at address 4; every registry is empty. -/
def collidingWorld : World :=
  { heap := initHeap.set 4 collidingDef
    registries := fun _ => []
    log := []
    engines := 0
    routes := []
    tasks := [] }

/-- A fresh exporter whose list of definitions holds the definition at address 4. -/
def collidingExporter : exporter :=
  { freshExporter with MetricsList := [4] }

/-- The result of `registerMetrics` on the colliding definition. -/
def collidingResult : World × exporter :=
  match registerMetrics clientLibrary (lit "gin") (collidingWorld, collidingExporter) with
  | .ok wp => wp
  | .error _ => (collidingWorld, collidingExporter)

/-- A labeled summary with the label name `quantile`. -/
def quantileDef : Metric :=
  { collector := none
    ID := lit "q"
    Name := lit "latency_summary"
    Description := lit "A summary of my own."
    Type_ := MetricTypeSummaryVec
    Args := [lit "quantile"] }


/-- A world whose heap holds `collidingDef` at address 4, `quantileDef` at address 5 and
`testMetricDef` at address 6; every registry is empty. -/
def mixedWorld : World :=
  { heap := ((initHeap.set 4 collidingDef).set 5 quantileDef).set 6 testMetricDef
    registries := fun _ => []
    log := []
    engines := 0
    routes := []
    tasks := [] }

/-- A fresh exporter whose list of definitions holds the definitions at the addresses 4, 5
and 6. -/
def mixedExporter : exporter :=
  { freshExporter with MetricsList := [4, 5, 6] }

/-- The collector each definition of `collidingWorld` gets. -/
def collidingCollectors (r : MetricRef) : Collector :=
  if r = reqCnt then reqCntCollector (lit "gin")
  else if r = reqDur then reqDurCollector (lit "gin")
  else if r = resSz then resSzCollector (lit "gin")
  else if r = reqSz then reqSzCollector (lit "gin")
  else { kind := .Counter
         opts := { Subsystem := lit "gin", Name := collidingDef.Name, Help := collidingDef.Description }
         labelNames := [] }


/-! # Properties

## Arithmetic of the request size -/

/-- Reducing the left summand first does not change the reduced sum. -/
theorem wrapInt_add_left (a b : Int) : wrapInt (wrapInt a + b) = wrapInt (a + b) := by
  unfold wrapInt; omega

/-- Reducing the right summand first does not change the reduced sum. -/
theorem wrapInt_add_right (a b : Int) : wrapInt (a + wrapInt b) = wrapInt (a + b) := by
  unfold wrapInt; omega

/-- Reduction to 64 bits is idempotent. -/
theorem wrapInt_idem (a : Int) : wrapInt (wrapInt a) = wrapInt a := by
  unfold wrapInt; omega

/-- An integer in the range of `int` is its own reduction. -/
theorem wrapInt_of_range (a : Int) (h1 : -9223372036854775808 ≤ a) (h2 : a < 9223372036854775808) :
    wrapInt a = a := by
  unfold wrapInt; omega

/-- The inner header loop adds the lengths of the values, modulo the reduction. -/
theorem wrapInt_addValues (vs : List GoString) (s : Int) :
    wrapInt (addValues s vs) = wrapInt (s + (vs.map len).sum) := by
  induction vs generalizing s with
  | nil => simp [addValues]
  | cons v vs ih =>
    have h := ih (intAdd s (len v))
    simp only [addValues, List.foldl_cons] at h ⊢
    rw [h, intAdd, wrapInt_add_left, List.map_cons, List.sum_cons, add_assoc]

/-- The header loop adds, for every entry, the length of the name and of the values. -/
theorem wrapInt_addHeaders (hs : List (GoString × List GoString)) (s : Int) :
    wrapInt (hs.foldl addHeader s)
      = wrapInt (s + (hs.map fun h => len h.1 + (h.2.map len).sum).sum) := by
  induction hs generalizing s with
  | nil => simp
  | cons h hs ih =>
    rw [List.foldl_cons, ih, addHeader, List.map_cons, List.sum_cons, ← wrapInt_add_left,
      wrapInt_addValues, intAdd, wrapInt_add_left, add_assoc (wrapInt _), wrapInt_add_left]
    congr 1
    ring

/-- The computed size is the specification's sum reduced to Go's `int`. -/
theorem computeApproximateRequestSize_wrap (r : Request) :
    computeApproximateRequestSize r = wrapInt (specRequestSize r) := by
  have key : wrapInt (intAdd ((r.Header.foldl addHeader
        (intAdd (intAdd (match r.URL with
          | some u => len u.Path
          | none => 0) (len r.Method)) (len r.Proto)))) (len r.Host))
      = wrapInt ((match r.URL with
          | some u => len u.Path
          | none => 0) + len r.Method + len r.Proto + len r.Host
        + (r.Header.map fun h => len h.1 + (h.2.map len).sum).sum) := by
    rw [intAdd, wrapInt_idem, ← wrapInt_add_left, wrapInt_addHeaders, wrapInt_add_left, intAdd,
      add_assoc (wrapInt _), wrapInt_add_left, intAdd, add_assoc (wrapInt _), wrapInt_add_left]
    congr 1
    ring
  unfold computeApproximateRequestSize specRequestSize
  by_cases hc : r.ContentLength = -1
  · simp only [hc, ne_eq, not_true_eq_false, if_false, if_true, add_zero]
    rw [← key, intAdd, wrapInt_idem]
  · simp only [hc, ne_eq, not_false_eq_true, if_true, if_false]
    rw [intAdd, wrapInt_add_right, ← wrapInt_add_left, key, wrapInt_add_left]

/-- Reordering the values within each header does not change the sum of the header lengths. -/
theorem headerSum_reorder (hs₁ hs₂ : List (GoString × List GoString))
    (h : List.Forall₂ (fun a b => a.1 = b.1 ∧ a.2.Perm b.2) hs₁ hs₂) :
    (hs₁.map fun h => len h.1 + (h.2.map len).sum).sum
      = (hs₂.map fun h => len h.1 + (h.2.map len).sum).sum := by
  induction h with
  | nil => rfl
  | cons hab _ ih =>
    rw [List.map_cons, List.map_cons, List.sum_cons, List.sum_cons, ih, hab.1,
      (hab.2.map len).sum_eq]

/-! ## Valid UTF-8 -/

/-- A string of bytes below 0x80 is valid UTF-8. -/
theorem utf8_ValidString_of_ascii : ∀ s : GoString, (∀ b ∈ s, b < 0x80) → utf8_ValidString s = true
  | [], _ => rfl
  | b :: rest, h => by
    have hb : b < 0x80 := h b (List.mem_cons_self _ _)
    have ih := utf8_ValidString_of_ascii rest (fun x hx => h x (List.mem_cons_of_mem _ hx))
    unfold utf8_ValidString at ih ⊢
    rw [validFrom, if_pos hb]
    exact ih

/-- A decimal digit is a byte below 0x80. -/
theorem digit_ascii (n : Nat) : UInt8.ofNat (48 + n % 10) < 0x80 := by
  have h : n % 10 < 10 := Nat.mod_lt n (by decide)
  generalize n % 10 = k at h
  interval_cases k <;> decide

/-- Digits put in front of bytes below 0x80 give bytes below 0x80. -/
theorem digitsFuel_ascii : ∀ (fuel n : Nat) (ds : GoString), (∀ b ∈ ds, b < 0x80) →
    ∀ b ∈ digitsFuel fuel n ds, b < 0x80
  | 0, _, _, h => h
  | fuel + 1, n, ds, h => by
    have hd : ∀ b ∈ UInt8.ofNat (48 + n % 10) :: ds, b < 0x80 := by
      intro b hb
      rcases List.mem_cons.mp hb with rfl | hb
      · exact digit_ascii n
      · exact h b hb
    rw [digitsFuel]
    split
    · exact hd
    · exact digitsFuel_ascii fuel (n / 10) _ hd

/-- The result of `strconv.Itoa` is valid UTF-8. -/
theorem strconv_Itoa_valid (n : Int) : utf8_ValidString (strconv_Itoa n) = true := by
  apply utf8_ValidString_of_ascii
  cases n with
  | ofNat n => exact digitsFuel_ascii _ _ [] (fun _ h => absurd h (List.not_mem_nil _))
  | negSucc n =>
    intro b hb
    rcases List.mem_cons.mp hb with rfl | hb
    · decide
    · exact digitsFuel_ascii _ _ [] (fun _ h => absurd h (List.not_mem_nil _)) b hb

/-! ## First-occurrence replacement -/

/-- Without an occurrence of `old` the replacement changes nothing. -/
theorem replaceFirst_of_absent (old new : GoString) :
    ∀ s : GoString, ¬ old <:+: s → replaceFirst old new s = s
  | [], h => by
    have hne : old ≠ [] := by
      rintro rfl
      exact h List.nil_infix
    simp [replaceFirst, hne]
  | c :: s, h => by
    have hp : old.isPrefixOf (c :: s) = false := by
      cases hb : old.isPrefixOf (c :: s) with
      | false => rfl
      | true => exact absurd (List.isPrefixOf_iff_prefix.mp hb).isInfix h
    have ht : ¬ old <:+: s := fun hi => h (hi.trans (List.suffix_cons c s).isInfix)
    simp [replaceFirst, hp, replaceFirst_of_absent old new s ht]

/-- When `old` starts `rest` and occurs at no earlier offset of `pre ++ rest`, the replacement
acts right after `pre`. -/
theorem replaceFirst_at (old new rest : GoString) (hp : old.isPrefixOf rest = true) :
    ∀ pre : GoString, (∀ i < pre.length, old.isPrefixOf ((pre ++ rest).drop i) = false) →
      replaceFirst old new (pre ++ rest) = pre ++ new ++ rest.drop old.length
  | [], _ => by
    cases rest with
    | nil =>
      have : old = [] := by
        have := List.isPrefixOf_iff_prefix.mp hp
        simpa using this
      simp [replaceFirst, this]
    | cons c s => simp [replaceFirst, hp]
  | a :: pre, h => by
    have h0 : old.isPrefixOf (a :: (pre ++ rest)) = false := by
      simpa using h 0 (by simp)
    have ih := replaceFirst_at old new rest hp pre (fun i hi => by
      simpa using h (i + 1) (by simpa using hi))
    simp [replaceFirst, h0, ih]

/-- On a request with a URL the low-cardinality mapping is the fold of the replacements. -/
theorem lowCardinalityUrl_eq (c : Context) (u : URL) (h : c.Request.URL = some u) :
    lowCardinalityUrl c
      = .ok (c.Params.foldl (fun url p => strings_Replace1 url p.Value (lit ":" ++ p.Key)) u.Path) := by
  unfold lowCardinalityUrl
  rw [h]
  rfl

/-- A path in which no parameter value occurs is a fixed point of the fold of the replacements. -/
theorem foldl_replace_fixed (L : GoString) :
    ∀ ps : List Param, (∀ p ∈ ps, ¬ p.Value <:+: L) →
      ps.foldl (fun url p => strings_Replace1 url p.Value (lit ":" ++ p.Key)) L = L
  | [], _ => rfl
  | p :: ps, h => by
    have h1 : strings_Replace1 L p.Value (lit ":" ++ p.Key) = L := by
      unfold strings_Replace1
      rw [replaceFirst_of_absent _ _ _ (h p (List.mem_cons_self _ _))]
    rw [List.foldl_cons, h1]
    exact foldl_replace_fixed L ps (fun q hq => h q (List.mem_cons_of_mem _ hq))


/-! ## The registration loop -/

/-- A sequence that returns is made of steps that return. -/
theorem bind_eq_ok {ε α β : Type} {x : Except ε α} {f : α → Except ε β} {y : β}
    (h : x >>= f = .ok y) : ∃ z, x = .ok z ∧ f z = .ok y := by
  cases x with
  | error e => cases h
  | ok z => exact ⟨z, rfl, h⟩

/-- A returned value is passed on. -/
theorem ok_bind {ε α β : Type} (a : α) (f : α → Except ε β) : (Except.ok a >>= f) = f a := rfl

/-- Agreement of configurations is reflexive. -/
theorem sameConfig_refl (p : exporter) : SameConfig p p :=
  ⟨rfl, rfl, rfl, rfl, rfl, rfl, rfl, rfl, rfl, rfl⟩

/-- Agreement of configurations is transitive. -/
theorem sameConfig_trans {p p' p'' : exporter} (h : SameConfig p p') (h' : SameConfig p' p'') :
    SameConfig p p'' :=
  ⟨h'.router.trans h.router, h'.listenAddress.trans h.listenAddress, h'.Ppg.trans h.Ppg,
    h'.registerer.trans h.registerer, h'.MetricsList.trans h.MetricsList,
    h'.MetricsPath.trans h.MetricsPath, h'.mapping.trans h.mapping,
    h'.URLLabelFromContext.trans h.URLLabelFromContext,
    h'.metricsWithAuth.trans h.metricsWithAuth, h'.accounts.trans h.accounts⟩

/-- The result of `NewMetric` does not depend on the definition's handle. -/
theorem NewMetric_congr (lib : Library) (m m' : Metric) (subsystem : GoString)
    (h : { m with collector := none } = { m' with collector := none }) :
    NewMetric lib m subsystem = NewMetric lib m' subsystem := by
  cases m
  cases m'
  simp only [Metric.mk.injEq, true_and] at h
  obtain ⟨-, h2, h3, h4, h5⟩ := h
  subst h2 h3 h4 h5
  rfl

/-- The collector of a definition does not depend on the definition's handle. -/
theorem collectorOf_congr (lib : Library) (m m' : Metric) (subsystem : GoString)
    (h : { m with collector := none } = { m' with collector := none }) :
    collectorOf lib m subsystem = collectorOf lib m' subsystem := by
  unfold collectorOf
  rw [NewMetric_congr lib m m' subsystem h]

/-- The collector of a definition for which `NewMetric` returns one. -/
theorem collectorOf_of_ok {lib : Library} {m : Metric} {subsystem : GoString}
    {c : Option Collector} (h : NewMetric lib m subsystem = .ok c) :
    collectorOf lib m subsystem = c := by
  unfold collectorOf
  rw [h]

/-- A constructor that returns, returns the collector of the kind, options and label names it
was called with. -/
theorem construct_ok {lib : Library} {kind : CollectorKind} {opts : Opts}
    {labelNames : List GoString} {c : Collector}
    (h : construct lib kind opts labelNames = .ok (some c)) :
    c = { kind := kind, opts := opts, labelNames := labelNames } := by
  unfold construct at h
  split at h
  · cases h
  · cases h
    rfl

/-- With the standard definitions in place, the collectors `NewMetric` returns for the four
package variables are the standard collectors. -/
theorem StdDefs.collectors {h : Heap} (hs : StdDefs h) (lib : Library) (subsystem : GoString) :
    (∀ c, NewMetric lib (h reqCnt) subsystem = .ok (some c) → c = reqCntCollector subsystem) ∧
    (∀ c, NewMetric lib (h reqDur) subsystem = .ok (some c) → c = reqDurCollector subsystem) ∧
    (∀ c, NewMetric lib (h resSz) subsystem = .ok (some c) → c = resSzCollector subsystem) ∧
    (∀ c, NewMetric lib (h reqSz) subsystem = .ok (some c) → c = reqSzCollector subsystem) := by
  refine ⟨fun c hc => ?_, fun c hc => ?_, fun c hc => ?_, fun c hc => ?_⟩
  · rw [NewMetric_congr lib (h reqCnt) reqCntDef subsystem hs.1] at hc
    have hc' : construct lib .CounterVec
        { Subsystem := subsystem, Name := reqCntDef.Name, Help := reqCntDef.Description }
        reqCntDef.Args = .ok (some c) := hc
    exact construct_ok hc'
  · rw [NewMetric_congr lib (h reqDur) reqDurDef subsystem hs.2.1] at hc
    have hc' : construct lib .HistogramVec
        { Subsystem := subsystem, Name := reqDurDef.Name, Help := reqDurDef.Description }
        reqDurDef.Args = .ok (some c) := hc
    exact construct_ok hc'
  · rw [NewMetric_congr lib (h resSz) resSzDef subsystem hs.2.2.1] at hc
    have hc' : construct lib .Summary
        { Subsystem := subsystem, Name := resSzDef.Name, Help := resSzDef.Description }
        [] = .ok (some c) := hc
    exact construct_ok hc'
  · rw [NewMetric_congr lib (h reqSz) reqSzDef subsystem hs.2.2.2] at hc
    have hc' : construct lib .Summary
        { Subsystem := subsystem, Name := reqSzDef.Name, Help := reqSzDef.Description }
        [] = .ok (some c) := hc
    exact construct_ok hc'

/-- Registration as the specification words it goes through a concatenation part by part. -/
theorem specRegisterAll_append (lib : Library) :
    ∀ (a b : List (GoString × Collector)) (st : List Collector × List GoString),
      specRegisterAll lib (a ++ b) st = specRegisterAll lib b (specRegisterAll lib a st)
  | [], _, _ => rfl
  | (name, c) :: a, b, (registered, log) => by
    simp only [List.cons_append, specRegisterAll]
    cases lib.register registered c with
    | none => exact specRegisterAll_append lib a b _
    | some e => exact specRegisterAll_append lib a b _

/-- The named collectors of a list depend on the definitions only, not on their handles. -/
theorem namedCollectors_congr (lib : Library) (h h' : Heap) (subsystem : GoString)
    (hd : ∀ r, { h' r with collector := none } = { h r with collector := none }) :
    ∀ l : List MetricRef, namedCollectors lib h' subsystem l = namedCollectors lib h subsystem l
  | [] => rfl
  | r :: l => by
    have hn : (h' r).Name = (h r).Name := by
      have := congrArg Metric.Name (hd r)
      exact this
    have ih := namedCollectors_congr lib h h' subsystem hd l
    unfold namedCollectors at ih ⊢
    rw [List.filterMap_cons, List.filterMap_cons, collectorOf_congr lib _ _ subsystem (hd r), hn, ih]

/-- The named collectors of a concatenation. -/
theorem namedCollectors_append (lib : Library) (h : Heap) (subsystem : GoString)
    (l₁ l₂ : List MetricRef) :
    namedCollectors lib h subsystem (l₁ ++ l₂)
      = namedCollectors lib h subsystem l₁ ++ namedCollectors lib h subsystem l₂ := by
  unfold namedCollectors
  exact List.filterMap_append _ _ _

/-- The named collectors of a list all of whose definitions get a collector. -/
theorem namedCollectors_eq_map (lib : Library) (h : Heap) (subsystem : GoString)
    (cs : MetricRef → Collector) :
    ∀ l : List MetricRef, (∀ r ∈ l, NewMetric lib (h r) subsystem = .ok (some (cs r))) →
      namedCollectors lib h subsystem l = l.map fun r => ((h r).Name, cs r)
  | [], _ => rfl
  | r :: l, hc => by
    have ih := namedCollectors_eq_map lib h subsystem cs l
      (fun x hx => hc x (List.mem_cons_of_mem _ hx))
    unfold namedCollectors at ih ⊢
    rw [List.filterMap_cons, collectorOf_of_ok (hc r (List.mem_cons_self _ _)), List.map_cons, ih]
    rfl

/-- A call of `Register` with its logging that returns was given a collector; it leaves
everything but the configured registry and the log as it was, and on those two it does what
the specification says of one collector. -/
theorem registerAndLog_ok {lib : Library} {w w' : World} {r : RegistererRef} {name : GoString}
    {metric : Option Collector} (h : registerAndLog lib w r name metric = .ok w') :
    ∃ c, metric = some c ∧ w'.heap = w.heap ∧ w'.engines = w.engines ∧ w'.routes = w.routes ∧
      w'.tasks = w.tasks ∧
      (w'.registries r, w'.log) = specRegisterAll lib [(name, c)] (w.registries r, w.log) ∧
      ∀ a, a ≠ r → w'.registries a = w.registries a := by
  cases metric with
  | none => cases h
  | some c =>
    refine ⟨c, rfl, ?_⟩
    unfold registerAndLog Register at h
    simp only [deref, ok_bind] at h
    unfold specRegisterAll
    cases hr : lib.register (w.registries r) c with
    | none =>
      rw [hr] at h
      cases h
      refine ⟨rfl, rfl, rfl, rfl, ?_, fun a ha => ?_⟩
      · simp [specRegisterAll]
      · simp [ha]
    | some e =>
      rw [hr] at h
      cases h
      exact ⟨rfl, rfl, rfl, rfl, by simp [specRegisterAll], fun _ _ => rfl⟩

/-- A call of `Register` with its logging returns when it is given a collector. -/
theorem registerAndLog_total (lib : Library) (w : World) (r : RegistererRef) (name : GoString)
    (c : Collector) : ∃ w', registerAndLog lib w r name (some c) = .ok w' := by
  unfold registerAndLog Register
  simp only [deref, ok_bind]
  cases lib.register (w.registries r) c with
  | none => exact ⟨_, rfl⟩
  | some e => exact ⟨_, rfl⟩

/-- The `switch` of the registration loop, when it returns on a collector, changes the matching
typed handle only. -/
theorem bindStandard_ok {p p' : exporter} {r : MetricRef} {c : Collector}
    (h : bindStandard p r (some c) = .ok p') :
    SameConfig p p' ∧
      p'.reqCnt = (if r = reqCnt then some c else p.reqCnt) ∧
      p'.reqDur = (if r = reqDur then some c else p.reqDur) ∧
      p'.resSz = (if r = resSz then some c else p.resSz) ∧
      p'.reqSz = (if r = reqSz then some c else p.reqSz) := by
  unfold bindStandard at h
  by_cases c0 : r = reqCnt
  · subst c0
    simp only [if_true, assertCounterVec] at h
    split at h
    · cases h
      exact ⟨⟨rfl, rfl, rfl, rfl, rfl, rfl, rfl, rfl, rfl, rfl⟩, by simp [reqCnt, reqDur, resSz, reqSz]⟩
    · cases h
  · by_cases c1 : r = reqDur
    · subst c1
      simp only [c0, if_false, if_true, assertHistogramVec] at h
      split at h
      · cases h
        exact ⟨⟨rfl, rfl, rfl, rfl, rfl, rfl, rfl, rfl, rfl, rfl⟩,
          by simp [reqCnt, reqDur, resSz, reqSz]⟩
      · cases h
    · by_cases c2 : r = resSz
      · subst c2
        simp only [c0, c1, if_false, if_true, assertSummary] at h
        split at h
        · cases h
          exact ⟨⟨rfl, rfl, rfl, rfl, rfl, rfl, rfl, rfl, rfl, rfl⟩,
            by simp [reqCnt, reqDur, resSz, reqSz]⟩
        · cases h
      · by_cases c3 : r = reqSz
        · subst c3
          simp only [c0, c1, c2, if_false, if_true, assertSummary] at h
          split at h
          · cases h
            exact ⟨⟨rfl, rfl, rfl, rfl, rfl, rfl, rfl, rfl, rfl, rfl⟩,
              by simp [reqCnt, reqDur, resSz, reqSz]⟩
          · cases h
        · simp only [c0, c1, c2, c3, if_false] at h
          cases h
          exact ⟨sameConfig_refl p, by simp [c0, c1, c2, c3]⟩

/-- The `switch` of the registration loop returns when the collector of a standard definition
has the asserted dynamic type. -/
theorem bindStandard_total (p : exporter) (r : MetricRef) (c : Collector)
    (h0 : r = reqCnt → c.kind = .CounterVec) (h1 : r = reqDur → c.kind = .HistogramVec)
    (h2 : r = resSz → c.kind = .Summary) (h3 : r = reqSz → c.kind = .Summary) :
    ∃ p', bindStandard p r (some c) = .ok p' := by
  unfold bindStandard
  by_cases c0 : r = reqCnt
  · exact ⟨_, by simp [c0, assertCounterVec, h0 c0]; rfl⟩
  · by_cases c1 : r = reqDur
    · exact ⟨_, by simp [c0, c1, assertHistogramVec, h1 c1]; rfl⟩
    · by_cases c2 : r = resSz
      · exact ⟨_, by simp [c0, c1, c2, assertSummary, h2 c2]; rfl⟩
      · by_cases c3 : r = reqSz
        · exact ⟨_, by simp [c0, c1, c2, c3, assertSummary, h3 c3]; rfl⟩
        · exact ⟨p, by simp [c0, c1, c2, c3]; rfl⟩


/-- One iteration of the registration loop that returns has the facts of a run over one
definition. -/
theorem registerMetric_ok {lib : Library} {subsystem : GoString} {w w' : World}
    {p p' : exporter} {r : MetricRef}
    (h : registerMetric lib subsystem (w, p) r = .ok (w', p')) :
    RegFacts lib subsystem [r] w p w' p' := by
  unfold registerMetric at h
  obtain ⟨metric, hm, h⟩ := bind_eq_ok h
  obtain ⟨w₁, hw, h⟩ := bind_eq_ok h
  obtain ⟨p₁, hp, h⟩ := bind_eq_ok h
  obtain ⟨c, rfl, e1, e2, e3, e4, e5, e6⟩ := registerAndLog_ok hw
  obtain ⟨hc, b0, b1, b2, b3⟩ := bindStandard_ok hp
  have hco : collectorOf lib (w.heap r) subsystem = some c := collectorOf_of_ok hm
  cases h
  constructor
  · intro a ha
    obtain rfl : a = r := by simpa using ha
    exact ⟨c, hm⟩
  · intro a
    by_cases ha : a = r
    · subst ha
      simp [Heap.set, e1, hco]
    · simp [Heap.set, ha, e1]
  · show (w₁.registries p.registerer, w₁.log) = _
    rw [e5]
    simp [namedCollectors, hco]
  · exact e6
  · exact e2
  · exact e3
  · exact e4
  · rw [b0]
    by_cases e : r = reqCnt
    · subst e
      simp [hco]
    · simp [e, Ne.symm e]
  · rw [b1]
    by_cases e : r = reqDur
    · subst e
      simp [hco]
    · simp [e, Ne.symm e]
  · rw [b2]
    by_cases e : r = resSz
    · subst e
      simp [hco]
    · simp [e, Ne.symm e]
  · rw [b3]
    by_cases e : r = reqSz
    · subst e
      simp [hco]
    · simp [e, Ne.symm e]
  · exact hc

/-- One iteration of the registration loop returns when `NewMetric` returns a collector for the
definition and the standard definitions are in place. -/
theorem registerMetric_total (lib : Library) (subsystem : GoString) (w : World) (p : exporter)
    (r : MetricRef) (c : Collector) (hs : StdDefs w.heap)
    (hc : NewMetric lib (w.heap r) subsystem = .ok (some c)) :
    ∃ w' p', registerMetric lib subsystem (w, p) r = .ok (w', p') := by
  obtain ⟨s0, s1, s2, s3⟩ := hs.collectors lib subsystem
  obtain ⟨w₁, hw⟩ := registerAndLog_total lib w p.registerer (w.heap r).Name c
  obtain ⟨p₁, hp⟩ := bindStandard_total p r c
    (fun e => by rw [s0 c (e ▸ hc)]; rfl) (fun e => by rw [s1 c (e ▸ hc)]; rfl)
    (fun e => by rw [s2 c (e ▸ hc)]; rfl) (fun e => by rw [s3 c (e ▸ hc)]; rfl)
  refine ⟨{ w₁ with heap := w₁.heap.set r { w₁.heap r with collector := some c } }, p₁, ?_⟩
  unfold registerMetric
  simp only [hc, ok_bind, hw, hp]
  rfl

/-- A run of the registration loop changes handles only. -/
theorem RegFacts.sameDef {lib : Library} {subsystem : GoString} {l : List MetricRef}
    {w w' : World} {p p' : exporter} (h : RegFacts lib subsystem l w p w' p') (r : MetricRef) :
    { w'.heap r with collector := none } = { w.heap r with collector := none } := by
  rw [h.heap r]
  split <;> rfl

/-- A run of the registration loop keeps the standard definitions in place. -/
theorem RegFacts.stdDefs {lib : Library} {subsystem : GoString} {l : List MetricRef}
    {w w' : World} {p p' : exporter} (h : RegFacts lib subsystem l w p w' p')
    (hs : StdDefs w.heap) : StdDefs w'.heap :=
  ⟨(h.sameDef reqCnt).trans hs.1, (h.sameDef reqDur).trans hs.2.1,
    (h.sameDef resSz).trans hs.2.2.1, (h.sameDef reqSz).trans hs.2.2.2⟩

/-- The facts of the run over no definition. -/
theorem RegFacts.nil (lib : Library) (subsystem : GoString) (w : World) (p : exporter) :
    RegFacts lib subsystem [] w p w p :=
  { built := fun r hr => by simp at hr
    heap := fun r => by simp
    outcome := rfl
    regOther := fun _ _ => rfl
    engines := rfl
    routes := rfl
    tasks := rfl
    cnt := by simp
    dur := by simp
    res := by simp
    req := by simp
    config := sameConfig_refl p }

/-- The facts of two consecutive runs are the facts of the run over the concatenation. -/
theorem RegFacts.append {lib : Library} {subsystem : GoString} {l₁ l₂ : List MetricRef}
    {w w₁ w₂ : World} {p p₁ p₂ : exporter} (h₁ : RegFacts lib subsystem l₁ w p w₁ p₁)
    (h₂ : RegFacts lib subsystem l₂ w₁ p₁ w₂ p₂) :
    RegFacts lib subsystem (l₁ ++ l₂) w p w₂ p₂ := by
  have hnm : ∀ r, NewMetric lib (w₁.heap r) subsystem = NewMetric lib (w.heap r) subsystem :=
    fun r => NewMetric_congr lib _ _ subsystem (h₁.sameDef r)
  have hco : ∀ r, collectorOf lib (w₁.heap r) subsystem = collectorOf lib (w.heap r) subsystem :=
    fun r => collectorOf_congr lib _ _ subsystem (h₁.sameDef r)
  have hreg : p₁.registerer = p.registerer := h₁.config.registerer
  constructor
  · intro r hr
    rcases List.mem_append.mp hr with m₁ | m₂
    · exact h₁.built r m₁
    · obtain ⟨c, hc⟩ := h₂.built r m₂
      exact ⟨c, by rw [← hnm r]; exact hc⟩
  · intro r
    rw [h₂.heap r, hco r, h₁.heap r]
    by_cases m₁ : r ∈ l₁ <;> by_cases m₂ : r ∈ l₂ <;> simp [m₁, m₂]
  · have o₂ := h₂.outcome
    rw [hreg, namedCollectors_congr lib w.heap w₁.heap subsystem h₁.sameDef l₂, h₁.outcome,
      ← specRegisterAll_append, ← namedCollectors_append] at o₂
    exact o₂
  · intro a ha
    rw [h₂.regOther a (hreg ▸ ha), h₁.regOther a ha]
  · rw [h₂.engines, h₁.engines]
  · rw [h₂.routes, h₁.routes]
  · rw [h₂.tasks, h₁.tasks]
  · rw [h₂.cnt, hco, h₁.cnt]
    by_cases m₁ : reqCnt ∈ l₁ <;> by_cases m₂ : reqCnt ∈ l₂ <;> simp [m₁, m₂]
  · rw [h₂.dur, hco, h₁.dur]
    by_cases m₁ : reqDur ∈ l₁ <;> by_cases m₂ : reqDur ∈ l₂ <;> simp [m₁, m₂]
  · rw [h₂.res, hco, h₁.res]
    by_cases m₁ : resSz ∈ l₁ <;> by_cases m₂ : resSz ∈ l₂ <;> simp [m₁, m₂]
  · rw [h₂.req, hco, h₁.req]
    by_cases m₁ : reqSz ∈ l₁ <;> by_cases m₂ : reqSz ∈ l₂ <;> simp [m₁, m₂]
  · exact sameConfig_trans h₁.config h₂.config

/-- A run of the registration loop over any list of definitions that returns has the facts of
the run. -/
theorem foldlM_registerMetric_ok (lib : Library) (subsystem : GoString) :
    ∀ (l : List MetricRef) (w : World) (p : exporter) (w' : World) (p' : exporter),
      l.foldlM (registerMetric lib subsystem) (w, p) = .ok (w', p') →
        RegFacts lib subsystem l w p w' p'
  | [], w, p, w', p', h => by
    cases h
    exact RegFacts.nil lib subsystem w p
  | r :: l, w, p, w', p', h => by
    rw [List.foldlM_cons] at h
    obtain ⟨⟨w₁, p₁⟩, h₁, h₂⟩ := bind_eq_ok h
    exact (registerMetric_ok h₁).append (foldlM_registerMetric_ok lib subsystem l w₁ p₁ w' p' h₂)

/-- The registration loop returns when the standard definitions are in place and `NewMetric`
returns a collector for every definition of the list. -/
theorem foldlM_registerMetric_total (lib : Library) (subsystem : GoString) :
    ∀ (l : List MetricRef) (w : World) (p : exporter), StdDefs w.heap →
      (∀ r ∈ l, ∃ c, NewMetric lib (w.heap r) subsystem = .ok (some c)) →
        ∃ w' p', l.foldlM (registerMetric lib subsystem) (w, p) = .ok (w', p')
  | [], w, p, _, _ => ⟨w, p, rfl⟩
  | r :: l, w, p, hs, hc => by
    obtain ⟨c, hcr⟩ := hc r (List.mem_cons_self _ _)
    obtain ⟨w₁, p₁, e₁⟩ := registerMetric_total lib subsystem w p r c hs hcr
    have f₁ := registerMetric_ok e₁
    obtain ⟨w₂, p₂, e₂⟩ := foldlM_registerMetric_total lib subsystem l w₁ p₁ (f₁.stdDefs hs)
      (fun x hx => by
        obtain ⟨cx, hx'⟩ := hc x (List.mem_cons_of_mem _ hx)
        exact ⟨cx, by rw [NewMetric_congr lib _ _ subsystem (f₁.sameDef x)]; exact hx'⟩)
    refine ⟨w₂, p₂, ?_⟩
    rw [List.foldlM_cons, e₁]
    exact e₂


/-! ## Options and construction -/

/-- Doing nothing is a frame. -/
theorem optFrame_refl (w : World) (p : exporter) : OptFrame w p w p :=
  ⟨rfl, fun _ _ => rfl, rfl, rfl, rfl, rfl, rfl, rfl, rfl, fun h => h⟩

/-- Frames compose. -/
theorem optFrame_trans {w w₁ w₂ : World} {p p₁ p₂ : exporter} (h : OptFrame w p w₁ p₁)
    (h' : OptFrame w₁ p₁ w₂ p₂) : OptFrame w p w₂ p₂ :=
  ⟨h'.heap.trans h.heap, fun a ha => (h'.regOther a ha).trans (h.regOther a ha),
    h'.log.trans h.log, h'.cnt.trans h.cnt, h'.dur.trans h.dur, h'.res.trans h.res,
    h'.req.trans h.req, h'.MetricsPath.trans h.MetricsPath,
    h'.URLLabelFromContext.trans h.URLLabelFromContext, fun m => h'.mapping (h.mapping m)⟩

/-- The low-cardinality mapping returns on every request with a URL. -/
theorem lowCardinalityUrl_returns : MappingReturns lowCardinalityUrl := by
  intro c hc
  cases hu : c.Request.URL with
  | none => exact absurd hu hc
  | some u => exact ⟨_, lowCardinalityUrl_eq c u hu⟩

/-- Starting the push loop is a frame. -/
theorem startPushTicker_frame {wp : World × exporter} {w' : World} {p' : exporter}
    (h : startPushTicker wp = .ok (w', p')) : OptFrame wp.1 wp.2 w' p' := by
  unfold startPushTicker at h
  by_cases hd : wrapInt (1000000000 * wp.2.Ppg.PushIntervalSeconds) ≤ 0
  · simp [hd] at h
  · simp only [hd, if_false] at h
    cases h
    exact ⟨rfl, fun _ _ => rfl, rfl, rfl, rfl, rfl, rfl, rfl, rfl, fun m => m⟩

/-- Every option is a frame: none touches the heap, a registry, the log or a typed handle. -/
theorem run_frame (opt : GinPrometheusOpt) {w w' : World} {p p' : exporter}
    (h : opt.run (w, p) = .ok (w', p')) : OptFrame w p w' p' := by
  cases opt with
  | WithPushGateway a b i =>
    have h' : startPushTicker
        (w, { p with Ppg := { p.Ppg with PushGatewayURL := a, MetricsURL := b,
                                         PushIntervalSeconds := i } }) = .ok (w', p') := h
    have f := startPushTicker_frame h'
    exact ⟨f.heap, f.regOther, f.log, f.cnt, f.dur, f.res, f.req, f.MetricsPath,
      f.URLLabelFromContext, f.mapping⟩
  | WithPushGatewayJob j =>
    cases h
    exact ⟨rfl, fun _ _ => rfl, rfl, rfl, rfl, rfl, rfl, rfl, rfl, fun m => m⟩
  | WithListenAddress a =>
    simp only [GinPrometheusOpt.run] at h
    split at h <;> cases h <;>
      exact ⟨rfl, fun _ _ => rfl, rfl, rfl, rfl, rfl, rfl, rfl, rfl, fun m => m⟩
  | WithListenAddressWithRouter a r =>
    simp only [GinPrometheusOpt.run] at h
    split at h <;> cases h <;>
      exact ⟨rfl, fun _ _ => rfl, rfl, rfl, rfl, rfl, rfl, rfl, rfl, fun m => m⟩
  | WithMetricsAuth a =>
    cases h
    exact ⟨rfl, fun _ _ => rfl, rfl, rfl, rfl, rfl, rfl, rfl, rfl, fun m => m⟩
  | WithCustomMetric m =>
    cases h
    exact ⟨rfl, fun _ _ => rfl, rfl, rfl, rfl, rfl, rfl, rfl, rfl, fun m => m⟩
  | WithRegisterer r =>
    cases h
    exact ⟨rfl, fun _ _ => rfl, rfl, rfl, rfl, rfl, rfl, rfl, rfl, fun m => m⟩
  | WithRequestCounterURLLabelMappingFn fn =>
    cases h
    exact ⟨rfl, fun _ _ => rfl, rfl, rfl, rfl, rfl, rfl, rfl, rfl, fun _ c _ => ⟨fn c, rfl⟩⟩
  | WithLowCardinalityUrl =>
    cases h
    exact ⟨rfl, fun _ _ => rfl, rfl, rfl, rfl, rfl, rfl, rfl, rfl,
      fun _ => lowCardinalityUrl_returns⟩

/-- A list of options is a frame. -/
theorem foldlM_run_frame :
    ∀ (opts : List GinPrometheusOpt) (w : World) (p : exporter) (w' : World) (p' : exporter),
      opts.foldlM (fun wp opt => opt.run wp) (w, p) = .ok (w', p') → OptFrame w p w' p'
  | [], w, p, w', p', h => by
    cases h
    exact optFrame_refl _ _
  | opt :: opts, w, p, w', p', h => by
    rw [List.foldlM_cons] at h
    obtain ⟨⟨w₁, p₁⟩, h₁, h₂⟩ := bind_eq_ok h
    exact optFrame_trans (run_frame opt h₁) (foldlM_run_frame opts w₁ p₁ w' p' h₂)

/-- Starting the metrics server is a frame. -/
theorem runServer_frame {wp : World × exporter} {w' : World} {p' : exporter}
    (h : runServer wp = .ok (w', p')) : OptFrame wp.1 wp.2 w' p' := by
  unfold runServer at h
  split at h
  · obtain ⟨r, -, h₂⟩ := bind_eq_ok h
    cases h₂
    exact ⟨rfl, fun _ _ => rfl, rfl, rfl, rfl, rfl, rfl, rfl, rfl, fun m => m⟩
  · cases h
    exact optFrame_refl _ _

/-- A registration of one of the scrape handler's collectors touches the default registry
only. -/
theorem registerHandlerCollector_frame {lib : Library} {w w' : World} {c : Collector}
    (h : registerHandlerCollector lib w c = .ok w') :
    w'.heap = w.heap ∧ w'.log = w.log ∧
      ∀ a, a ≠ DefaultRegisterer → w'.registries a = w.registries a := by
  unfold registerHandlerCollector Register at h
  simp only [deref, ok_bind] at h
  cases hr : lib.register (w.registries DefaultRegisterer) c with
  | none =>
    rw [hr] at h
    cases h
    exact ⟨rfl, rfl, fun a ha => by simp [ha]⟩
  | some e =>
    rw [hr] at h
    cases e with
    | alreadyRegistered =>
      cases h
      exact ⟨rfl, rfl, fun _ _ => rfl⟩
    | other msg => cases h

/-- The creation of the scrape handler touches the default registry only. -/
theorem prometheusHandler_frame (lib : Library) :
    ∀ (cs : List Collector) (w w' : World),
      cs.foldlM (registerHandlerCollector lib) w = .ok w' →
        w'.heap = w.heap ∧ w'.log = w.log ∧
          ∀ a, a ≠ DefaultRegisterer → w'.registries a = w.registries a
  | [], w, w', h => by
    cases h
    exact ⟨rfl, rfl, fun _ _ => rfl⟩
  | c :: cs, w, w', h => by
    rw [List.foldlM_cons] at h
    obtain ⟨w₁, h₁, h₂⟩ := bind_eq_ok h
    obtain ⟨a1, a2, a3⟩ := registerHandlerCollector_frame h₁
    obtain ⟨b1, b2, b3⟩ := prometheusHandler_frame lib cs w₁ w' h₂
    exact ⟨b1.trans a1, b2.trans a2, fun a ha => (b3 a ha).trans (a3 a ha)⟩

/-- Installing a route touches the routes only. -/
theorem GET_frame {w w' : World} {e : Option EngineRef} {path : GoString}
    {auth : Option Accounts} (h : GET w e path auth = .ok w') :
    w'.heap = w.heap ∧ w'.log = w.log ∧ w'.registries = w.registries := by
  unfold GET at h
  obtain ⟨r, -, h⟩ := bind_eq_ok h
  split at h
  · cases h
  · cases h
    exact ⟨rfl, rfl, rfl⟩

/-- Installing the metrics route is a frame. -/
theorem setMetricsPath_frame {lib : Library} {w w' : World} {p p' : exporter}
    {e : Option EngineRef} (h : setMetricsPath lib (w, p) e = .ok (w', p')) :
    OptFrame w p w' p' := by
  unfold setMetricsPath at h
  split at h
  · obtain ⟨w₁, h₁, h⟩ := bind_eq_ok h
    obtain ⟨w₂, h₂, h⟩ := bind_eq_ok h
    obtain ⟨a1, a2, a3⟩ := prometheusHandler_frame lib _ _ _ h₁
    obtain ⟨b1, b2, b3⟩ := GET_frame h₂
    have f := runServer_frame h
    exact ⟨(f.heap.trans b1).trans a1,
      fun a ha => ((f.regOther a ha).trans (congrFun b3 a)).trans (a3 a ha),
      (f.log.trans b2).trans a2, f.cnt, f.dur, f.res, f.req, f.MetricsPath,
      f.URLLabelFromContext, f.mapping⟩
  · obtain ⟨w₁, h₁, h⟩ := bind_eq_ok h
    obtain ⟨w₂, h₂, h⟩ := bind_eq_ok h
    obtain ⟨a1, a2, a3⟩ := prometheusHandler_frame lib _ _ _ h₁
    obtain ⟨b1, b2, b3⟩ := GET_frame h₂
    cases h
    exact ⟨b1.trans a1, fun a ha => (congrFun b3 a).trans (a3 a ha), b2.trans a2, rfl, rfl, rfl,
      rfl, rfl, rfl, fun m => m⟩

/-- Installing the authenticated metrics route is a frame. -/
theorem setMetricsPathWithAuth_frame {lib : Library} {w w' : World} {p p' : exporter}
    {e : Option EngineRef} (h : setMetricsPathWithAuth lib (w, p) e = .ok (w', p')) :
    OptFrame w p w' p' := by
  unfold setMetricsPathWithAuth at h
  split at h
  · obtain ⟨acc, -, h⟩ := bind_eq_ok h
    obtain ⟨w₁, h₁, h⟩ := bind_eq_ok h
    obtain ⟨w₂, h₂, h⟩ := bind_eq_ok h
    obtain ⟨a1, a2, a3⟩ := prometheusHandler_frame lib _ _ _ h₁
    obtain ⟨b1, b2, b3⟩ := GET_frame h₂
    have f := runServer_frame h
    exact ⟨(f.heap.trans b1).trans a1,
      fun a ha => ((f.regOther a ha).trans (congrFun b3 a)).trans (a3 a ha),
      (f.log.trans b2).trans a2, f.cnt, f.dur, f.res, f.req, f.MetricsPath,
      f.URLLabelFromContext, f.mapping⟩
  · obtain ⟨acc, -, h⟩ := bind_eq_ok h
    obtain ⟨w₁, h₁, h⟩ := bind_eq_ok h
    obtain ⟨w₂, h₂, h⟩ := bind_eq_ok h
    obtain ⟨a1, a2, a3⟩ := prometheusHandler_frame lib _ _ _ h₁
    obtain ⟨b1, b2, b3⟩ := GET_frame h₂
    cases h
    exact ⟨b1.trans a1, fun a ha => (congrFun b3 a).trans (a3 a ha), b2.trans a2, rfl, rfl, rfl,
      rfl, rfl, rfl, fun m => m⟩

/-- Whenever the construction returns, the exporter has its four handles bound to the standard
collectors, the default metrics path, no context key and a mapping that returns; the world
differs from the initial one in the handles of the standard definitions, in the default
registry, in the log and in the routes and tasks only. -/
theorem GinPrometheusMiddleware_built {lib : Library} {w w' : World} {e : Option EngineRef}
    {subsystem : GoString} {opts : List GinPrometheusOpt} {p : exporter}
    (h : GinPrometheusMiddleware lib w e subsystem opts = .ok (w', p)) (hs : StdDefs w.heap) :
    Built lib subsystem w w' p := by
  unfold GinPrometheusMiddleware at h
  obtain ⟨⟨w₁, p₁⟩, h₁, h⟩ := bind_eq_ok h
  obtain ⟨⟨w₂, p₂⟩, h₂, h₃⟩ := bind_eq_ok h
  have f := foldlM_registerMetric_ok lib subsystem _ w freshExporter w₁ p₁ h₁
  have hl : standardMetrics ++ (w, freshExporter).2.MetricsList = standardMetrics :=
    List.append_nil _
  rw [hl] at f
  have f₂ := foldlM_run_frame opts w₁ p₁ w₂ p₂ h₂
  have f₃ : OptFrame w₂ p₂ w' p := by
    split at h₃
    · exact setMetricsPathWithAuth_frame h₃
    · exact setMetricsPath_frame h₃
  have f₄ := optFrame_trans f₂ f₃
  obtain ⟨s0, s1, s2, s3⟩ := hs.collectors lib subsystem
  have m0 : reqCnt ∈ standardMetrics := by decide
  have m1 : reqDur ∈ standardMetrics := by decide
  have m2 : resSz ∈ standardMetrics := by decide
  have m3 : reqSz ∈ standardMetrics := by decide
  obtain ⟨c0, k0⟩ := f.built reqCnt m0
  obtain ⟨c1, k1⟩ := f.built reqDur m1
  obtain ⟨c2, k2⟩ := f.built resSz m2
  obtain ⟨c3, k3⟩ := f.built reqSz m3
  constructor
  · rw [f₄.cnt, f.cnt, if_pos m0, collectorOf_of_ok k0, s0 c0 k0]
  · rw [f₄.dur, f.dur, if_pos m1, collectorOf_of_ok k1, s1 c1 k1]
  · rw [f₄.res, f.res, if_pos m2, collectorOf_of_ok k2, s2 c2 k2]
  · rw [f₄.req, f.req, if_pos m3, collectorOf_of_ok k3, s3 c3 k3]
  · rw [f₄.MetricsPath, f.config.MetricsPath]
    rfl
  · rw [f₄.URLLabelFromContext, f.config.URLLabelFromContext]
    rfl
  · apply f₄.mapping
    rw [f.config.mapping]
    intro c hc
    cases hu : c.Request.URL with
    | none => exact absurd hu hc
    | some u => exact ⟨u.Path, by simp [freshExporter, hu, deref]⟩
  · intro r
    rw [f₄.heap, f.heap r]
  · intro a ha
    rw [f₄.regOther a ha]
    exact f.regOther a ha

/-! ## The handler -/

/-- Without a configured key the label is the one of the mapping. -/
theorem urlLabelFromContext_off (p : exporter) (c : Context) (url : GoString)
    (h : p.URLLabelFromContext = []) : urlLabelFromContext p c url = .ok url := by
  unfold urlLabelFromContext
  rw [h]
  rfl

/-- Off the metrics path, with bound handles of 5 and 3 label names and a label `url` that is
computed without a panic, when the method, the handler name, the host and the label `url` are
valid UTF-8, the handler appends one observation to each of the four logs. -/
theorem handler_measures (p : exporter) (next : Context → Context) (elapsed : Int) (c : Context)
    (obs : Observations) (u : URL) (cnt dur rq rs : Collector) (url : GoString)
    (hu : c.Request.URL = some u) (hne : u.Path ≠ p.MetricsPath)
    (hcnt : p.reqCnt = some cnt) (hcl : cnt.labelNames.length = 5)
    (hdur : p.reqDur = some dur) (hdl : dur.labelNames.length = 3)
    (hrq : p.reqSz = some rq) (hrs : p.resSz = some rs)
    (hurl : urlLabel p (next c) = .ok url)
    (vm : utf8_ValidString (next c).Request.Method = true)
    (vn : utf8_ValidString (next c).handlerName = true)
    (vh : utf8_ValidString (next c).Request.Host = true)
    (vu : utf8_ValidString url = true) :
    handler p next elapsed c obs = .ok (next c,
      { reqDur := obs.reqDur ++
          [([strconv_Itoa (next c).Writer.status, (next c).Request.Method, url],
            { num := elapsed, den := 1000000000 })]
        reqCnt := obs.reqCnt ++
          [[strconv_Itoa (next c).Writer.status, (next c).Request.Method, (next c).handlerName,
            (next c).Request.Host, url]]
        reqSz := obs.reqSz ++ [{ num := computeApproximateRequestSize c.Request, den := 1 }]
        resSz := obs.resSz ++ [{ num := (next c).Writer.size, den := 1 }] }) := by
  unfold handler
  rw [hu, deref, ok_bind, if_neg hne]
  simp only [hurl, ok_bind, WithLabelValues, hcnt, hdur, hrq, hrs, deref, hcl, hdl,
    List.length_cons, List.length_nil, Nat.zero_add, Nat.reduceAdd, ne_eq, not_true_eq_false,
    if_false, List.all_cons, List.all_nil, strconv_Itoa_valid, vm, vn, vh, vu, Bool.and_self,
    if_true]
  rfl

/-- Off the metrics path, with the duration histogram bound to a collector of 3 label names, a
label `url` that is not valid UTF-8 makes the handler panic. -/
theorem handler_invalid_label (p : exporter) (next : Context → Context) (elapsed : Int)
    (c : Context) (obs : Observations) (u : URL) (dur : Collector) (url : GoString)
    (hu : c.Request.URL = some u) (hne : u.Path ≠ p.MetricsPath)
    (hdur : p.reqDur = some dur) (hdl : dur.labelNames.length = 3)
    (hurl : urlLabel p (next c) = .ok url) (vu : utf8_ValidString url = false) :
    handler p next elapsed c obs = .error "label value is not valid UTF-8" := by
  unfold handler
  rw [hu, deref, ok_bind, if_neg hne]
  simp only [hurl, ok_bind, WithLabelValues, hdur, deref, hdl, List.length_cons, List.length_nil,
    Nat.zero_add, Nat.reduceAdd, ne_eq, not_true_eq_false, if_false, List.all_cons, vu,
    Bool.and_false, Bool.false_and]
  rfl

/-- On the metrics path the handler only forwards. -/
theorem handler_metricsPath (p : exporter) (next : Context → Context) (elapsed : Int)
    (c : Context) (obs : Observations) (u : URL) (hu : c.Request.URL = some u)
    (he : u.Path = p.MetricsPath) : handler p next elapsed c obs = .ok (next c, obs) := by
  unfold handler
  rw [hu, deref, ok_bind, if_pos he]
  rfl


/-! ## Registration as the specification words it -/

/-- Registration removes nothing from the registry. -/
theorem specRegisterAll_reg_mono (lib : Library) (c : Collector) :
    ∀ (items : List (GoString × Collector)) (st : List Collector × List GoString),
      c ∈ st.1 → c ∈ (specRegisterAll lib items st).1
  | [], _, h => h
  | (name, d) :: rest, (registered, log), h => by
    unfold specRegisterAll
    cases lib.register registered d with
    | none =>
      exact specRegisterAll_reg_mono lib c rest _ (List.mem_append_left _ h)
    | some e => exact specRegisterAll_reg_mono lib c rest _ h

/-- Registration removes nothing from the log. -/
theorem specRegisterAll_log_mono (lib : Library) (m : GoString) :
    ∀ (items : List (GoString × Collector)) (st : List Collector × List GoString),
      m ∈ st.2 → m ∈ (specRegisterAll lib items st).2
  | [], _, h => h
  | (name, d) :: rest, (registered, log), h => by
    unfold specRegisterAll
    cases lib.register registered d with
    | none => exact specRegisterAll_log_mono lib m rest _ h
    | some e =>
      exact specRegisterAll_log_mono lib m rest _ (List.mem_append_left _ h)

/-- In a registration, a collector the registry accepts at its turn is registered at the end,
and the failure of one it rejects at its turn is in the log at the end. -/
theorem specRegisterAll_turn (lib : Library) (pre post : List (GoString × Collector))
    (name : GoString) (c : Collector) (st : List Collector × List GoString) :
    (lib.register (specRegisterAll lib pre st).1 c = none →
      c ∈ (specRegisterAll lib (pre ++ (name, c) :: post) st).1) ∧
    (lib.register (specRegisterAll lib pre st).1 c ≠ none →
      registerErrorLine name ∈ (specRegisterAll lib (pre ++ (name, c) :: post) st).2) := by
  rw [specRegisterAll_append]
  generalize specRegisterAll lib pre st = st₁
  obtain ⟨registered, log⟩ := st₁
  constructor
  · intro h
    simp only at h
    rw [specRegisterAll, h]
    exact specRegisterAll_reg_mono lib c post _ (List.mem_append_right _ (List.mem_singleton_self c))
  · intro h
    simp only at h
    rw [specRegisterAll]
    cases hr : lib.register registered c with
    | none => exact absurd hr h
    | some e =>
      exact specRegisterAll_log_mono lib _ post _
        (List.mem_append_right _ (List.mem_singleton_self _))


/-! ## The claims -/

/-- C1 (as amended): for a request whose URL path differs from the exporter's `MetricsPath` and
whose label values are valid UTF-8 (the method, the handler name, the host and the label the
configured mapping yields), the handler returned by `GinPrometheusMiddleware` (built with any
options, the rest of the chain leaving the request with a URL) records exactly one
observation into each of the four standard metrics: the elapsed time in the duration
histogram under (status, method, url), one increment of the request counter under (status,
method, handler name, host, url), the computed approximate request size in the request-size
summary and the written response size in the response-size summary, where url is the value
of the configured label mapping; the label names declared for `reqDur` are 3 and those for
`reqCnt` are 5, as many as the values passed. -/
theorem handler_records_each_standard_metric_once (lib : Library) (w : World)
    (e : Option EngineRef) (subsystem : GoString) (opts : List GinPrometheusOpt) (w' : World)
    (p : exporter) (hs : StdDefs w.heap)
    (hb : GinPrometheusMiddleware lib w e subsystem opts = .ok (w', p))
    (next : Context → Context) (elapsed : Int) (c : Context) (obs : Observations) (u : URL)
    (hu : c.Request.URL = some u) (hne : u.Path ≠ p.MetricsPath)
    (hnext : (next c).Request.URL ≠ none)
    (vm : utf8_ValidString (next c).Request.Method = true)
    (vn : utf8_ValidString (next c).handlerName = true)
    (vh : utf8_ValidString (next c).Request.Host = true)
    (vu : ∀ url, p.ReqCntURLLabelMappingFn (next c) = .ok url → utf8_ValidString url = true) :
    ∃ url, p.ReqCntURLLabelMappingFn (next c) = .ok url ∧
      handler p next elapsed c obs = .ok (next c,
        { reqDur := obs.reqDur ++
            [([strconv_Itoa (next c).Writer.status, (next c).Request.Method, url],
              { num := elapsed, den := 1000000000 })]
          reqCnt := obs.reqCnt ++
            [[strconv_Itoa (next c).Writer.status, (next c).Request.Method, (next c).handlerName,
              (next c).Request.Host, url]]
          reqSz := obs.reqSz ++ [{ num := computeApproximateRequestSize c.Request, den := 1 }]
          resSz := obs.resSz ++ [{ num := (next c).Writer.size, den := 1 }] }) ∧
      p.reqDur.map Collector.labelNames = some [lit "code", lit "method", lit "url"] ∧
      p.reqCnt.map Collector.labelNames
        = some [lit "code", lit "method", lit "handler", lit "host", lit "url"] := by
  have b := GinPrometheusMiddleware_built hb hs
  obtain ⟨url, hmap⟩ := b.mapping (next c) hnext
  have hurl : urlLabel p (next c) = .ok url := by
    unfold urlLabel
    rw [hmap, ok_bind]
    exact urlLabelFromContext_off p (next c) url b.URLLabelFromContext
  refine ⟨url, hmap, ?_, ?_, ?_⟩
  · exact handler_measures p next elapsed c obs u _ _ _ _ url hu hne b.cnt rfl b.dur rfl
      b.req b.res hurl vm vn vh (vu url hmap)
  · rw [b.dur]; rfl
  · rw [b.cnt]; rfl

/-- C1 as amended, at the exporter of `example/example.go` and the request
`GET /customer/alice`. -/
theorem handler_records_each_standard_metric_once_witness :
    StdDefs exampleWorld.heap ∧
    ∃ url, exampleBuilt.2.ReqCntURLLabelMappingFn (exampleNext (customerContext (lit "alice")))
        = .ok url ∧
      handler exampleBuilt.2 exampleNext 1500000 (customerContext (lit "alice")) noObservations
        = .ok (exampleNext (customerContext (lit "alice")),
        { reqDur := noObservations.reqDur ++
            [([strconv_Itoa (exampleNext (customerContext (lit "alice"))).Writer.status,
                (exampleNext (customerContext (lit "alice"))).Request.Method, url],
              { num := 1500000, den := 1000000000 })]
          reqCnt := noObservations.reqCnt ++
            [[strconv_Itoa (exampleNext (customerContext (lit "alice"))).Writer.status,
              (exampleNext (customerContext (lit "alice"))).Request.Method,
              (exampleNext (customerContext (lit "alice"))).handlerName,
              (exampleNext (customerContext (lit "alice"))).Request.Host, url]]
          reqSz := noObservations.reqSz ++
            [{ num := computeApproximateRequestSize (customerContext (lit "alice")).Request,
               den := 1 }]
          resSz := noObservations.resSz ++
            [{ num := (exampleNext (customerContext (lit "alice"))).Writer.size, den := 1 }] }) ∧
      exampleBuilt.2.reqDur.map Collector.labelNames
        = some [lit "code", lit "method", lit "url"] ∧
      exampleBuilt.2.reqCnt.map Collector.labelNames
        = some [lit "code", lit "method", lit "handler", lit "host", lit "url"] :=
  ⟨⟨rfl, rfl, rfl, rfl⟩,
    handler_records_each_standard_metric_once clientLibrary exampleWorld (some 0) (lit "gin")
      exampleOpts exampleBuilt.1 exampleBuilt.2 ⟨rfl, rfl, rfl, rfl⟩ rfl exampleNext 1500000
      (customerContext (lit "alice")) noObservations { Path := lit "/customer/" ++ lit "alice" }
      rfl (by decide) (by decide) (by decide) (by decide) (by decide)
      (fun url h => by
        have e : url = lit "/customer/:name" :=
          (Except.ok.inj (show Except.ok (lit "/customer/:name") = Except.ok url from h)).symm
        rw [e]
        decide)⟩

/-- C1 (as stated) fails at the request `GET /customer/%ff`, whose path ends in the byte 0xff:
on the exporter built without options the path differs from the metrics path, the label
`url` is the path, which is not valid UTF-8, and the handler panics in `WithLabelValues`
before anything is observed. -/
theorem handler_panics_on_invalid_utf8_path :
    StdDefs exampleWorld.heap ∧ plainBuild = .ok plainBuilt ∧
    (customerContext [0xff]).Request.URL = some { Path := lit "/customer/" ++ [0xff] } ∧
    lit "/customer/" ++ [0xff] ≠ plainBuilt.2.MetricsPath ∧
    plainBuilt.2.ReqCntURLLabelMappingFn (exampleNext (customerContext [0xff]))
      = .ok (lit "/customer/" ++ [0xff]) ∧
    utf8_ValidString (lit "/customer/" ++ [0xff]) = false ∧
    handler plainBuilt.2 exampleNext 1500000 (customerContext [0xff]) noObservations
      = .error "label value is not valid UTF-8" :=
  ⟨⟨rfl, rfl, rfl, rfl⟩, rfl, rfl, by decide, rfl, by decide, rfl⟩

/-- C2: for a request whose URL path equals the exporter's `MetricsPath`, the handler forwards
to the next handler (the resulting context is the one the rest of the chain leaves) and the
observations of all four standard metrics are left as they were. -/
theorem handler_skips_metrics_path (p : exporter) (next : Context → Context) (elapsed : Int)
    (c : Context) (obs : Observations) (u : URL) (hu : c.Request.URL = some u)
    (he : u.Path = p.MetricsPath) : handler p next elapsed c obs = .ok (next c, obs) :=
  handler_metricsPath p next elapsed c obs u hu he

/-- C2, at the exporter of `example/example.go` and a request to `/metrics`. -/
theorem handler_skips_metrics_path_witness :
    handler exampleBuilt.2 exampleNext 1500000 (nameContext.withPath (lit "/metrics"))
        noObservations
      = .ok (exampleNext (nameContext.withPath (lit "/metrics")), noObservations) :=
  handler_skips_metrics_path exampleBuilt.2 exampleNext 1500000
    (nameContext.withPath (lit "/metrics")) noObservations { Path := lit "/metrics" } rfl rfl

/-- C3 (the code at the failing input and beyond): whatever options `GinPrometheusMiddleware` is
given, the construction leaves every definition other than the four standard ones as it was,
so the handle of a custom definition handed over with `WithCustomMetric` stays unbound, and it
leaves every registry other than the default one as it was, so the registry handed over with
`WithRegisterer` receives nothing: `newExporter` runs `registerMetrics` before any option. -/
theorem customMetrics_left_unregistered (lib : Library) (w : World) (e : Option EngineRef)
    (subsystem : GoString) (opts : List GinPrometheusOpt) (w' : World) (p : exporter)
    (hs : StdDefs w.heap) (hb : GinPrometheusMiddleware lib w e subsystem opts = .ok (w', p)) :
    (∀ r, r ∉ standardMetrics → w'.heap r = w.heap r) ∧
    (∀ a, a ≠ DefaultRegisterer → w'.registries a = w.registries a) := by
  have b := GinPrometheusMiddleware_built hb hs
  exact ⟨fun r hr => by rw [b.heap r, if_neg hr], b.regOther⟩

/-- C3, at `example/example.go`: the call returns, the two custom definitions are in the
exporter's list and the controller registry is the configured one, yet that registry is
empty, the two handles are nil, and the default registry has received the four standard
collectors and the two collectors of the scrape handler, and nothing else. -/
theorem customMetrics_left_unregistered_witness :
    StdDefs exampleWorld.heap ∧ exampleBuild = .ok exampleBuilt ∧
    ((∀ r, r ∉ standardMetrics → exampleBuilt.1.heap r = exampleWorld.heap r) ∧
      (∀ a, a ≠ DefaultRegisterer → exampleBuilt.1.registries a = exampleWorld.registries a)) ∧
    exampleBuilt.2.MetricsList = [testMetric, testMetric2] ∧
    exampleBuilt.2.registerer = controllerRegistry ∧
    exampleBuilt.1.registries controllerRegistry = [] ∧
    (exampleBuilt.1.heap testMetric).collector = none ∧
    (exampleBuilt.1.heap testMetric2).collector = none ∧
    exampleBuilt.1.registries DefaultRegisterer
      = exampleWorld.registries DefaultRegisterer ++
        ([reqCntCollector (lit "gin"), reqDurCollector (lit "gin"), resSzCollector (lit "gin"),
          reqSzCollector (lit "gin")] ++ clientLibrary.handlerCollectors) :=
  ⟨⟨rfl, rfl, rfl, rfl⟩, rfl,
    customMetrics_left_unregistered clientLibrary exampleWorld (some 0) (lit "gin") exampleOpts
      exampleBuilt.1 exampleBuilt.2 ⟨rfl, rfl, rfl, rfl⟩ rfl,
    by decide, by decide, by decide, by decide, by decide, by decide⟩

/-- C4 (as amended): `computeApproximateRequestSize r` is the sum of the lengths of path (0
without a URL), method, protocol and host, of every header name and every header value, and of
the content length, where -1 counts as 0, reduced to Go's 64-bit `int`; it is that sum itself
whenever the sum lies in the range of `int`; a GET to "/a" with protocol "HTTP/1.1", host "h",
no headers and content length 0 yields 3 + 8 + 2 + 1 + 0 = 14. -/
theorem computeApproximateRequestSize_eq_literal_sum (r : Request) :
    computeApproximateRequestSize r = wrapInt (specRequestSize r) ∧
    (-9223372036854775808 ≤ specRequestSize r ∧ specRequestSize r < 9223372036854775808 →
      computeApproximateRequestSize r = specRequestSize r) ∧
    computeApproximateRequestSize getA = 3 + 8 + 2 + 1 + 0 ∧
    computeApproximateRequestSize getA = 14 := by
  refine ⟨computeApproximateRequestSize_wrap r, fun h => ?_, by decide, by decide⟩
  rw [computeApproximateRequestSize_wrap r, wrapInt_of_range _ h.1 h.2]

/-- C4 (as stated) fails at a GET to "/a" that announces the content length 2^63 - 1: the sum
of the claim is 9223372036854775821, and the code, adding in `int`, returns
-9223372036854775795. -/
theorem computeApproximateRequestSize_overflows :
    hugeRequest.ContentLength = 9223372036854775807 ∧
    specRequestSize hugeRequest = 2 + 3 + 8 + 1 + 0 + 9223372036854775807 ∧
    computeApproximateRequestSize hugeRequest = -9223372036854775795 ∧
    computeApproximateRequestSize hugeRequest ≠ specRequestSize hugeRequest := by
  decide

/-- C5 (as amended): with the mapping of `WithLowCardinalityUrl` and the single route parameter
"name", for every non-empty value `v` that does not occur in the path "/customer/" ++ v at any
offset before the parameter segment (the offsets 0 to 9), the path "/customer/" ++ v with the
parameters [(name, v)] maps to "/customer/:name"; any two such requests get the same label. -/
theorem lowCardinalityUrl_customer_template (v : GoString) (c : Context) (hv : v ≠ [])
    (hu : c.Request.URL = some { Path := lit "/customer/" ++ v })
    (hp : c.Params = [{ Key := lit "name", Value := v }])
    (hfirst : ∀ i < 10, v.isPrefixOf ((lit "/customer/" ++ v).drop i) = false) :
    lowCardinalityUrl c = .ok (lit "/customer/:name") := by
  have _ := hv
  have hrep : replaceFirst v (lit ":" ++ lit "name") (lit "/customer/" ++ v)
      = lit "/customer/" ++ (lit ":" ++ lit "name") ++ v.drop v.length := by
    apply replaceFirst_at
    · exact List.isPrefixOf_iff_prefix.mpr (List.prefix_refl _)
    · intro i hi
      exact hfirst i hi
  rw [lowCardinalityUrl_eq c _ hu, hp]
  show Except.ok (replaceFirst v (lit ":" ++ lit "name") (lit "/customer/" ++ v)) = _
  rw [hrep, List.drop_length, List.append_nil]
  rfl

/-- C5 as amended, at "alice" and at "bob": both paths get the label "/customer/:name". -/
theorem lowCardinalityUrl_customer_template_witness :
    lowCardinalityUrl (customerContext (lit "alice")) = .ok (lit "/customer/:name") ∧
    lowCardinalityUrl (customerContext (lit "bob")) = .ok (lit "/customer/:name") :=
  ⟨lowCardinalityUrl_customer_template (lit "alice") (customerContext (lit "alice")) (by decide)
      rfl rfl (by decide),
    lowCardinalityUrl_customer_template (lit "bob") (customerContext (lit "bob")) (by decide)
      rfl rfl (by decide)⟩

/-- C5 (as stated) fails at the non-empty value "c": the first occurrence of "c" in
"/customer/c" is the one in "customer", so the label is "/:nameustomer/c". -/
theorem lowCardinalityUrl_customer_misfires :
    lit "c" ≠ [] ∧
    (customerContext (lit "c")).Request.URL = some { Path := lit "/customer/" ++ lit "c" } ∧
    (customerContext (lit "c")).Params = [{ Key := lit "name", Value := lit "c" }] ∧
    lowCardinalityUrl (customerContext (lit "c")) = .ok (lit "/:nameustomer/c") ∧
    lowCardinalityUrl (customerContext (lit "c")) ≠ .ok (lit "/customer/:name") :=
  ⟨by decide, rfl, rfl, rfl, fun h => absurd (Except.ok.inj h) (by decide)⟩

/-- C6 (as amended): when none of the parameter values occurs in the path the mapping of
`WithLowCardinalityUrl` produced (no parameter value remains to replace), applying the mapping
with the same parameters to that path returns it unchanged. -/
theorem lowCardinalityUrl_fixed_when_no_value_remains (c : Context) (L : GoString)
    (h : lowCardinalityUrl c = .ok L) (hno : ∀ p ∈ c.Params, ¬ p.Value <:+: L) :
    lowCardinalityUrl (c.withPath L) = .ok L := by
  have _ := h
  rw [lowCardinalityUrl_eq (c.withPath L) { Path := L } rfl]
  exact congrArg Except.ok (foldl_replace_fixed L c.Params hno)

/-- C6 as amended, at `GET /customer/alice`: the label "/customer/:name" is mapped to itself. -/
theorem lowCardinalityUrl_fixed_when_no_value_remains_witness :
    lowCardinalityUrl ((customerContext (lit "alice")).withPath (lit "/customer/:name"))
      = .ok (lit "/customer/:name") :=
  lowCardinalityUrl_fixed_when_no_value_remains (customerContext (lit "alice"))
    (lit "/customer/:name") rfl (by decide)

/-- C6 (as stated) fails at the path "/a" of the route "/:name": the mapping produces "/:name",
and applied to "/:name" with the same parameter it replaces the "a" of "name". -/
theorem lowCardinalityUrl_not_idempotent :
    lowCardinalityUrl nameContext = .ok (lit "/:name") ∧
    lowCardinalityUrl (nameContext.withPath (lit "/:name")) = .ok (lit "/:n:nameme") ∧
    lowCardinalityUrl (nameContext.withPath (lit "/:name")) ≠ .ok (lit "/:name") :=
  ⟨rfl, rfl, fun h => absurd (Except.ok.inj h) (by decide)⟩

/-- C7 (as amended): for an exporter built by `GinPrometheusMiddleware` with any options and
any `URLLabelFromContext` key, every request with a URL (which the rest of the chain leaves in
place) and every per-request context in which the key is absent or holds a string, when the
label values (the method, the handler name, the host and the label `url`) are valid UTF-8, the
handler runs to completion: it returns the context the rest of the chain left and, unless the
request is for the metrics path, one more observation in each of the four standard metrics. -/
theorem handler_completes_on_valid_labels (lib : Library) (w : World)
    (e : Option EngineRef) (subsystem : GoString) (opts : List GinPrometheusOpt) (w' : World)
    (p : exporter) (hs : StdDefs w.heap)
    (hb : GinPrometheusMiddleware lib w e subsystem opts = .ok (w', p)) (key : GoString)
    (next : Context → Context) (elapsed : Int) (c : Context) (obs : Observations) (u : URL)
    (hu : c.Request.URL = some u) (hnext : (next c).Request.URL ≠ none)
    (hstr : ∀ v, (next c).Get key = some v → ∃ s, v = Dyn.str s)
    (vm : utf8_ValidString (next c).Request.Method = true)
    (vn : utf8_ValidString (next c).handlerName = true)
    (vh : utf8_ValidString (next c).Request.Host = true)
    (vu : ∀ url, urlLabel { p with URLLabelFromContext := key } (next c) = .ok url →
      utf8_ValidString url = true) :
    ∃ obs', handler { p with URLLabelFromContext := key } next elapsed c obs
        = .ok (next c, obs') ∧
      (u.Path ≠ p.MetricsPath →
        obs'.reqDur.length = obs.reqDur.length + 1 ∧ obs'.reqCnt.length = obs.reqCnt.length + 1 ∧
        obs'.reqSz.length = obs.reqSz.length + 1 ∧ obs'.resSz.length = obs.resSz.length + 1) := by
  have b := GinPrometheusMiddleware_built hb hs
  by_cases he : u.Path = p.MetricsPath
  · exact ⟨obs, handler_metricsPath { p with URLLabelFromContext := key } next elapsed c obs u
      hu he, fun hne => absurd he hne⟩
  · obtain ⟨url₀, hmap⟩ := b.mapping (next c) hnext
    have hurl : ∃ url, urlLabel { p with URLLabelFromContext := key } (next c) = .ok url := by
      unfold urlLabel
      simp only [hmap, ok_bind]
      unfold urlLabelFromContext
      split
      · cases hg : (next c).Get key with
        | none => exact ⟨lit "unknown", rfl⟩
        | some v =>
          obtain ⟨s, rfl⟩ := hstr v hg
          exact ⟨s, rfl⟩
      · exact ⟨url₀, rfl⟩
    obtain ⟨url, hurl⟩ := hurl
    refine ⟨_, handler_measures { p with URLLabelFromContext := key } next elapsed c obs u _ _ _ _
      url hu he b.cnt rfl b.dur rfl b.req b.res hurl vm vn vh (vu url hurl), fun _ => ?_⟩
    simp

/-- C7 as amended, at the exporter of `example/example.go` with the key "urlLabel" and a
context that holds the string "/customer" under it. -/
theorem handler_completes_on_valid_labels_witness :
    StdDefs exampleWorld.heap ∧
    ∃ obs', handler { exampleBuilt.2 with URLLabelFromContext := lit "urlLabel" } exampleNext
        1500000
        ((customerContext (lit "alice")).withKeys [(lit "urlLabel", Dyn.str (lit "/customer"))])
        noObservations
        = .ok (exampleNext
            ((customerContext (lit "alice")).withKeys
              [(lit "urlLabel", Dyn.str (lit "/customer"))]), obs') ∧
      (lit "/customer/" ++ lit "alice" ≠ exampleBuilt.2.MetricsPath →
        obs'.reqDur.length = noObservations.reqDur.length + 1 ∧
        obs'.reqCnt.length = noObservations.reqCnt.length + 1 ∧
        obs'.reqSz.length = noObservations.reqSz.length + 1 ∧
        obs'.resSz.length = noObservations.resSz.length + 1) :=
  ⟨⟨rfl, rfl, rfl, rfl⟩,
    handler_completes_on_valid_labels clientLibrary exampleWorld (some 0) (lit "gin") exampleOpts
      exampleBuilt.1 exampleBuilt.2 ⟨rfl, rfl, rfl, rfl⟩ rfl (lit "urlLabel") exampleNext 1500000
      ((customerContext (lit "alice")).withKeys [(lit "urlLabel", Dyn.str (lit "/customer"))])
      noObservations { Path := lit "/customer/" ++ lit "alice" } rfl (by decide)
      (fun v hv =>
        ⟨lit "/customer",
          (Option.some.inj (show some (Dyn.str (lit "/customer")) = some v from hv)).symm⟩)
      (by decide) (by decide) (by decide)
      (fun url h => by
        have e : url = lit "/customer" :=
          (Except.ok.inj (show Except.ok (lit "/customer") = Except.ok url from h)).symm
        rw [e]
        decide)⟩

/-- C7 (as stated) fails in two ways. On the exporter built without options (no context key),
the request `GET /%ff` has a URL, its path is not valid UTF-8, and the handler panics in
`WithLabelValues`. With the key "urlLabel" configured and an `int` stored under it, the type
assertion `u.(string)` of the handler panics. -/
theorem handler_panics_on_invalid_label :
    (StdDefs exampleWorld.heap ∧ plainBuild = .ok plainBuilt ∧
      plainBuilt.2.URLLabelFromContext = [] ∧
      (nameContext.withPath [0x2f, 0xff]).Request.URL = some { Path := [0x2f, 0xff] } ∧
      (nameContext.withPath [0x2f, 0xff]).Keys = [] ∧
      handler plainBuilt.2 exampleNext 1500000 (nameContext.withPath [0x2f, 0xff]) noObservations
        = .error "label value is not valid UTF-8") ∧
    (((customerContext (lit "alice")).withKeys [(lit "urlLabel", Dyn.other "int")]).Request.URL
        = some { Path := lit "/customer/" ++ lit "alice" } ∧
      ((customerContext (lit "alice")).withKeys [(lit "urlLabel", Dyn.other "int")]).Get
          (lit "urlLabel") = some (Dyn.other "int") ∧
      handler { exampleBuilt.2 with URLLabelFromContext := lit "urlLabel" } exampleNext 1500000
        ((customerContext (lit "alice")).withKeys [(lit "urlLabel", Dyn.other "int")])
        noObservations
        = .error "interface conversion: interface is int, not string") :=
  ⟨⟨⟨rfl, rfl, rfl, rfl⟩, rfl, rfl, rfl, rfl, rfl⟩, rfl, rfl, rfl⟩

/-- C8: `getPushGatewayURL` returns `PushGatewayURL ++ "/metrics/job/" ++ job ++ "/instance/"
++ h`, where `h` is the hostname and `job` is the configured job name, or "gin" when the job
name is empty; with the job "custom" and the hostname "host1" the result is the gateway URL
followed by "/metrics/job/custom/instance/host1". -/
theorem getPushGatewayURL_eq (p : exporter) (h : GoString) :
    (getPushGatewayURL p h).1
      = p.Ppg.PushGatewayURL ++ lit "/metrics/job/"
          ++ (if p.Ppg.Job = [] then lit "gin" else p.Ppg.Job) ++ lit "/instance/" ++ h ∧
    (getPushGatewayURL { p with Ppg := { p.Ppg with Job := lit "custom" } } (lit "host1")).1
      = p.Ppg.PushGatewayURL ++ lit "/metrics/job/custom/instance/host1" := by
  constructor
  · unfold getPushGatewayURL
    by_cases hj : p.Ppg.Job = []
    · simp [hj]
    · simp [hj]
  · have hc : (lit "custom" = ([] : GoString)) = False := by decide
    have hl : lit "/metrics/job/" ++ (lit "custom" ++ (lit "/instance/" ++ lit "host1"))
        = lit "/metrics/job/custom/instance/host1" := by decide
    unfold getPushGatewayURL
    simp only [hc, if_false, List.append_assoc, hl]

/-- C9: `computeApproximateRequestSize` does not depend on the order of the headers: for every
request, every reordering of its header entries and every reordering of the values within
each header, the computed size is the same. -/
theorem computeApproximateRequestSize_header_order (r : Request)
    (hs₁ hs₂ : List (GoString × List GoString)) (h₁ : r.Header.Perm hs₁)
    (h₂ : List.Forall₂ (fun a b => a.1 = b.1 ∧ a.2.Perm b.2) hs₁ hs₂) :
    computeApproximateRequestSize { r with Header := hs₂ } = computeApproximateRequestSize r := by
  rw [computeApproximateRequestSize_wrap, computeApproximateRequestSize_wrap]
  congr 1
  unfold specRequestSize
  have e : (hs₂.map fun h => len h.1 + (h.2.map len).sum).sum
      = (r.Header.map fun h => len h.1 + (h.2.map len).sum).sum := by
    rw [← headerSum_reorder hs₁ hs₂ h₂]
    exact ((h₁.map _).sum_eq).symm
  simp only [e]

/-- C9, at a request with two headers, the entries swapped and the values of one reversed. -/
theorem computeApproximateRequestSize_header_order_witness :
    computeApproximateRequestSize
        { { getA with Header := [(lit "Accept", [lit "a", lit "bc"]), (lit "X-Id", [lit "7"])] } with
          Header := [(lit "X-Id", [lit "7"]), (lit "Accept", [lit "bc", lit "a"])] }
      = computeApproximateRequestSize
        { getA with Header := [(lit "Accept", [lit "a", lit "bc"]), (lit "X-Id", [lit "7"])] } :=
  computeApproximateRequestSize_header_order
    { getA with Header := [(lit "Accept", [lit "a", lit "bc"]), (lit "X-Id", [lit "7"])] }
    [(lit "X-Id", [lit "7"]), (lit "Accept", [lit "a", lit "bc"])]
    [(lit "X-Id", [lit "7"]), (lit "Accept", [lit "bc", lit "a"])]
    (by decide)
    (List.Forall₂.cons ⟨rfl, by decide⟩ (List.Forall₂.cons ⟨rfl, by decide⟩ List.Forall₂.nil))

/-- C10 (as amended): in `registerMetrics`, for every registry state and every list of metric
definitions for each of which `NewMetric` returns a collector (`cs r` for the definition
`r`), the loop runs over the whole list. Every definition of the list, the standard ones
included, has its collector handle bound to its collector, whether or not its registration
failed. The registry and the log end as registration one by one leaves them: a collector the
registry accepts at its turn is registered; for one it rejects at its turn the failure is
logged and the registry stays as it is; every other registry is untouched. -/
theorem registerMetrics_processes_every_definition (lib : Library) (subsystem : GoString)
    (w : World) (p : exporter) (cs : MetricRef → Collector) (hs : StdDefs w.heap)
    (hc : ∀ r ∈ standardMetrics ++ p.MetricsList,
      NewMetric lib (w.heap r) subsystem = .ok (some (cs r))) :
    ∃ w' p', registerMetrics lib subsystem (w, p) = .ok (w', p') ∧
      (∀ r ∈ standardMetrics ++ p.MetricsList, (w'.heap r).collector = some (cs r)) ∧
      (w'.registries p.registerer, w'.log)
        = specRegisterAll lib ((standardMetrics ++ p.MetricsList).map fun r => ((w.heap r).Name, cs r))
            (w.registries p.registerer, w.log) ∧
      (∀ pre r post, standardMetrics ++ p.MetricsList = pre ++ r :: post →
        (lib.register
            (specRegisterAll lib (pre.map fun r => ((w.heap r).Name, cs r))
              (w.registries p.registerer, w.log)).1 (cs r) = none →
          cs r ∈ w'.registries p.registerer) ∧
        (lib.register
            (specRegisterAll lib (pre.map fun r => ((w.heap r).Name, cs r))
              (w.registries p.registerer, w.log)).1 (cs r) ≠ none →
          registerErrorLine (w.heap r).Name ∈ w'.log)) ∧
      (∀ a, a ≠ p.registerer → w'.registries a = w.registries a) := by
  obtain ⟨w', p', e⟩ := foldlM_registerMetric_total lib subsystem
    (standardMetrics ++ p.MetricsList) w p hs (fun r hr => ⟨cs r, hc r hr⟩)
  have f := foldlM_registerMetric_ok lib subsystem _ w p w' p' e
  have o := f.outcome
  rw [namedCollectors_eq_map lib w.heap subsystem cs _ hc] at o
  refine ⟨w', p', e, fun r hr => ?_, o, fun pre r post hl => ?_, f.regOther⟩
  · rw [f.heap r, if_pos hr, collectorOf_of_ok (hc r hr)]
  · have t := specRegisterAll_turn lib (pre.map fun r => ((w.heap r).Name, cs r))
      (post.map fun r => ((w.heap r).Name, cs r)) (w.heap r).Name (cs r)
      (w.registries p.registerer, w.log)
    have hm : (standardMetrics ++ p.MetricsList).map (fun r => ((w.heap r).Name, cs r))
        = (pre.map fun r => ((w.heap r).Name, cs r)) ++ ((w.heap r).Name, cs r) ::
          (post.map fun r => ((w.heap r).Name, cs r)) := by
      rw [hl, List.map_append, List.map_cons]
    rw [← hm, ← o] at t
    exact t

/-- C10 as amended, at a definition whose name collides with the standard request counter. -/
theorem registerMetrics_processes_every_definition_witness :
    StdDefs collidingWorld.heap ∧
    ∃ w' p', registerMetrics clientLibrary (lit "gin") (collidingWorld, collidingExporter)
        = .ok (w', p') ∧
      (∀ r ∈ standardMetrics ++ collidingExporter.MetricsList,
        (w'.heap r).collector = some (collidingCollectors r)) ∧
      (w'.registries collidingExporter.registerer, w'.log)
        = specRegisterAll clientLibrary
            ((standardMetrics ++ collidingExporter.MetricsList).map fun r =>
              ((collidingWorld.heap r).Name, collidingCollectors r))
            (collidingWorld.registries collidingExporter.registerer, collidingWorld.log) ∧
      (∀ pre r post, standardMetrics ++ collidingExporter.MetricsList = pre ++ r :: post →
        (clientLibrary.register
            (specRegisterAll clientLibrary
              (pre.map fun r => ((collidingWorld.heap r).Name, collidingCollectors r))
              (collidingWorld.registries collidingExporter.registerer, collidingWorld.log)).1
            (collidingCollectors r) = none →
          collidingCollectors r ∈ w'.registries collidingExporter.registerer) ∧
        (clientLibrary.register
            (specRegisterAll clientLibrary
              (pre.map fun r => ((collidingWorld.heap r).Name, collidingCollectors r))
              (collidingWorld.registries collidingExporter.registerer, collidingWorld.log)).1
            (collidingCollectors r) ≠ none →
          registerErrorLine (collidingWorld.heap r).Name ∈ w'.log)) ∧
      (∀ a, a ≠ collidingExporter.registerer →
        w'.registries a = collidingWorld.registries a) :=
  ⟨⟨rfl, rfl, rfl, rfl⟩,
    registerMetrics_processes_every_definition clientLibrary (lit "gin") collidingWorld
      collidingExporter collidingCollectors ⟨rfl, rfl, rfl, rfl⟩
      (fun r hr => by
        have h : r = 0 ∨ r = 1 ∨ r = 2 ∨ r = 3 ∨ r = 4 := by
          simpa [standardMetrics, reqCnt, reqDur, resSz, reqSz, collidingExporter] using hr
        rcases h with rfl | rfl | rfl | rfl | rfl <;> rfl)⟩

/-- C10 (as stated) fails in two ways. A custom definition named like the standard request
counter is rejected by the registry (its collector is not registered and the failure is
logged), yet its collector handle is bound, not left unset. And when the definition after it
is a labeled summary with the label name `quantile`, the constructor panics inside
`NewMetric`, so the loop stops and the definition after that one is never constructed. -/
theorem registerMetrics_binds_handle_of_failed_definition :
    (registerMetrics clientLibrary (lit "gin") (collidingWorld, collidingExporter)
        = .ok collidingResult ∧
      (collidingWorld.heap 4).collector = none ∧
      collidingCollectors 4 ∉ collidingResult.1.registries DefaultRegisterer ∧
      collidingResult.1.log = [lit "requests_total could not be registered in exporter"] ∧
      (collidingResult.1.heap 4).collector = some (collidingCollectors 4) ∧
      (collidingResult.1.heap 4).collector ≠ none) ∧
    registerMetrics clientLibrary (lit "gin") (mixedWorld, mixedExporter)
      = .error "quantile is not allowed as label name in summaries" :=
  ⟨⟨rfl, rfl, by decide, by decide, by decide, by decide⟩, rfl⟩

end GinPrometheus
